import Mathlib

set_option allowUnsafeReducibility true
attribute [local semireducible] Rat.add Rat.sub Rat.mul Rat.inv

/-!
Shallow embedding of a multiplayer snake game server (Node/socket.io) and its
browser client.  The server keeps a registry of rooms; each room holds a player
map and a food list and is advanced by a fixed-rate game loop ("tick").

Floating point numbers of the JavaScript source are modelled as rationals.
`Math.random()` results, and the `Math.cos`/`Math.sin` functions, are supplied
by an environment `Env`: every call site draws from an ambient stream
`Env.rand` at a fresh index, so the streams stand for the arbitrary values the
source obtains at runtime.  `Math.hypot dx dy < r` (with `r > 0`) is embedded
as the equivalent `dx^2 + dy^2 < r^2`.  The real-time fields (`lastUpdate`,
`Date.now()`) are not part of any game-visible behaviour and are omitted.
-/

/-- MAP_SIZE constant of the server (arena side length). -/
def MAP_SIZE : ℚ := 2000

/-- INITIAL_LENGTH constant of the server (starting target length). -/
def INITIAL_LENGTH : Nat := 5

/-- SPEED constant of the server (normal speed). -/
def SPEED : ℚ := 5

/-- BOOST_SPEED constant of the server (boosting speed). -/
def BOOST_SPEED : ℚ := 10

/-- INITIAL_SCORE constant of the server (starting score). -/
def INITIAL_SCORE : Int := 100

/-- A 2D position, as stored in a body segment `{x, y}`. -/
structure Pos where
  x : ℚ
  y : ℚ
deriving DecidableEq, Repr

/-- A food item `{x, y, color}`; the color is modelled by its hsl hue. -/
structure Food where
  x : ℚ
  y : ℚ
  color : ℚ
deriving DecidableEq, Repr

/-- A player object as created by the `joinRoom` handler.  Scores are integer
valued in the source (`+10` per food, `-1` per boost charge from `100`), so the
score field is an `Int`. -/
structure Player where
  id : Nat
  name : String
  x : ℚ
  y : ℚ
  angle : ℚ
  length : Nat
  body : List Pos
  color : ℚ
  score : Int
  isBoosting : Bool
deriving DecidableEq, Repr

/-- A room: player map (an insertion-ordered key/value object in JS, hence a
list with unique ids), food list, and tick counter. -/
structure Room where
  players : List Player
  food : List Food
  tickCount : Nat
deriving DecidableEq, Repr

/-- The room registry `rooms`, keyed by room id. -/
abbrev Registry := List (Nat × Room)

/-- Ambient nondeterminism: trigonometric evaluation of client-sent angles and
the stream of `Math.random()` results (each call site consumes fresh
indices). -/
structure Env where
  cosF : ℚ → ℚ
  sinF : ℚ → ℚ
  rand : Nat → ℚ

/-- The `generateFood` helper: a food at a uniform position in the arena with a
random hue.  Consumes three random draws starting at index `i`. -/
def generateFood (env : Env) (i : Nat) : Food :=
  { x := env.rand i * MAP_SIZE - MAP_SIZE / 2
    y := env.rand (i + 1) * MAP_SIZE - MAP_SIZE / 2
    color := env.rand (i + 2) * 360 }

/-- Embedding of `Math.hypot (a.x - b.x) (a.y - b.y) < r`: for `r > 0` this is
equivalent to comparing squared distances. -/
def closeTo (a b : Pos) (r : ℚ) : Bool :=
  decide ((a.x - b.x) ^ 2 + (a.y - b.y) ^ 2 < r ^ 2)

/-- Head position of a player. -/
def Player.pos (p : Player) : Pos := ⟨p.x, p.y⟩

/-- Boost handling, player part: when the flag is set and score exceeds the
minimum threshold 10, a score point is consumed on ticks whose counter is
divisible by 5; otherwise the flag is forcibly cleared. -/
def boostPlayer (tc : Nat) (p : Player) : Player :=
  if p.isBoosting && decide (10 < p.score) then
    if tc % 5 = 0 then { p with score := p.score - 1 } else p
  else
    { p with isBoosting := false }

/-- Boost handling, speed part: `currentSpeed` is `BOOST_SPEED` exactly when
the boost branch is taken, `SPEED` otherwise. -/
def boostSpeed (p : Player) : ℚ :=
  if p.isBoosting && decide (10 < p.score) then BOOST_SPEED else SPEED

/-- Boost handling, food part: on a charging tick a residue food is dropped at
the tail position jittered by `Math.random() * 10 - 5` on each axis, colored as
the player (skipped when the body is empty, the `if (tail)` guard).  Returns
the food list and the next random index. -/
def boostFood (env : Env) (tc : Nat) (p : Player) (food : List Food) (i : Nat) :
    List Food × Nat :=
  if p.isBoosting && decide (10 < p.score) then
    if tc % 5 = 0 then
      match p.body.getLast? with
      | some tail =>
          (food ++ [{ x := tail.x + (env.rand i * 10 - 5)
                      y := tail.y + (env.rand (i + 1) * 10 - 5)
                      color := p.color }], i + 2)
      | none => (food, i)
    else (food, i)
  else (food, i)

/-- One boundary check: clamp a coordinate into `[-MAP_SIZE/2, MAP_SIZE/2]`,
as the two sequential `if` statements do for each axis. -/
def clampAxis (v : ℚ) : ℚ :=
  let v1 := if v < -(MAP_SIZE / 2) then -(MAP_SIZE / 2) else v
  if v1 > MAP_SIZE / 2 then MAP_SIZE / 2 else v1

/-- Head movement, boundary checks, and the body update (`unshift` the new
head, then `pop` while the body exceeds the target length, i.e. `take`). -/
def movePlayer (env : Env) (spd : ℚ) (p : Player) : Player :=
  let nx := clampAxis (p.x + env.cosF p.angle * spd)
  let ny := clampAxis (p.y + env.sinF p.angle * spd)
  { p with x := nx, y := ny, body := (Pos.mk nx ny :: p.body).take p.length }

/-- Result of one player's food-collision scan. -/
structure EatRes where
  kept : List Food
  spawned : List Food
  idx : Nat
  eaten : Nat

/-- The food pickup test `Math.hypot(player.x - f.x, player.y - f.y) < 20`:
is the food within the pickup radius of the head? -/
def nearHead (hd : Pos) (f : Food) : Bool := closeTo hd ⟨f.x, f.y⟩ 20

/-- The food-collision loop runs over the food array from the last index down
to 0; an eaten food is spliced out and a replacement is pushed at the end
(never rescanned, since the index only decreases).  This helper processes the
reversed food list (last element first), separating the kept foods (in
traversal order) from the replacements (in push order). -/
def eatRev (env : Env) (h : Pos) : List Food → Nat → EatRes
  | [], i => ⟨[], [], i, 0⟩
  | f :: rest, i =>
    if nearHead h f then
      let r := eatRev env h rest (i + 3)
      ⟨r.kept, generateFood env i :: r.spawned, r.idx, r.eaten + 1⟩
    else
      let r := eatRev env h rest i
      ⟨f :: r.kept, r.spawned, r.idx, r.eaten⟩

/-- One player's food-collision scan: final food list (kept foods in original
order, then the pushed replacements), next random index, and the number of
foods eaten (each eaten food adds `+1` target length and `+10` score). -/
def eatFood (env : Env) (h : Pos) (food : List Food) (i : Nat) :
    List Food × Nat × Nat :=
  let r := eatRev env h food.reverse i
  (r.kept.reverse ++ r.spawned, r.idx, r.eaten)

/-- Result of one player's slice of the movement loop. -/
structure StepRes where
  player : Player
  food : List Food
  idx : Nat

/-- One iteration of the per-player movement loop: boost handling, head
movement with boundary checks, body update, then the food-collision scan
against the current shared food list. -/
def stepPlayer (env : Env) (tc : Nat) (p : Player) (food : List Food)
    (i : Nat) : StepRes :=
  let spd := boostSpeed p
  let p1 := boostPlayer tc p
  let fi1 := boostFood env tc p food i
  let p2 := movePlayer env spd p1
  let fe := eatFood env p2.pos fi1.1 fi1.2
  ⟨{ p2 with length := p2.length + fe.2.2, score := p2.score + 10 * fe.2.2 },
    fe.1, fe.2.1⟩

/-- Result of the whole movement loop. -/
structure MoveRes where
  players : List Player
  food : List Food
  idx : Nat

/-- The movement loop: players are processed in map order, threading the shared
food list (and the random stream index) through the iterations. -/
def movePhase (env : Env) (tc : Nat) :
    List Player → List Food → Nat → MoveRes
  | [], food, i => ⟨[], food, i⟩
  | p :: ps, food, i =>
    let r1 := stepPlayer env tc p food i
    let r2 := movePhase env tc ps r1.food r1.idx
    ⟨r1.player :: r2.players, r2.food, r2.idx⟩

/-- Inner collision test: does `p`'s head hit a segment of `o`'s body (distance
below the threshold 10)? -/
def hitsBody (p o : Player) : Bool :=
  o.body.any (fun s => closeTo p.pos s 10)

/-- Collision detection for one player: its head against every other player's
body (the `playerId === otherId` pair is skipped). -/
def isDead (ps : List Player) (p : Player) : Bool :=
  ps.any (fun o => (o.id != p.id) && hitsBody p o)

/-- The `deadPlayers` list collected by the collision-detection loop, in map
order. -/
def deadIds (ps : List Player) : List Nat :=
  (ps.filter (fun p => isDead ps p)).map Player.id

/-- Death conversion: every body segment at an even index becomes a food item
colored as the dying player. -/
def explode (p : Player) : List Food :=
  (p.body.enum.filter (fun z => z.1 % 2 = 0)).map
    (fun z => ⟨z.2.x, z.2.y, p.color⟩)

/-- A message emitted by the server during a tick: `dead`, sent to exactly the
socket whose id is carried, or the room-wide `gameState` broadcast. -/
inductive Msg where
  | dead (pid : Nat)
  | gameState (players : List Player) (food : List Food)
deriving DecidableEq

/-- Death handling: for each collected id in order, the player's even-indexed
segments are pushed as food, the player is deleted from the map, and a `dead`
message is emitted to that id.  (The lookup cannot fail in the source, where
the ids come from the live map; a missing id is a no-op here.) -/
def removeDead : List Nat → List Player → List Food →
    List Player × List Food × List Msg
  | [], ps, food => (ps, food, [])
  | pid :: rest, ps, food =>
    match ps.find? (fun q => q.id == pid) with
    | some p =>
      let r := removeDead rest (ps.filter (fun q => q.id != pid))
        (food ++ explode p)
      (r.1, r.2.1, Msg.dead pid :: r.2.2)
    | none => removeDead rest ps food

/-- Result of one room tick: the new room state and the emitted messages. -/
structure TickRes where
  room : Room
  msgs : List Msg

/-- One room iteration of the game loop: increment the tick counter, run the
movement loop over all players, collect the dead players from the collision
detection, resolve the deaths, and finally broadcast the resulting state. -/
def tick (env : Env) (r : Room) : TickRes :=
  let tc := r.tickCount + 1
  let m := movePhase env tc r.players r.food 0
  let dres := removeDead (deadIds m.players) m.players m.food
  ⟨⟨dres.1, dres.2.1, tc⟩,
    dres.2.2 ++ [Msg.gameState dres.1 dres.2.1]⟩

/-- Fresh food seeding of `createRoom`: 100 generated foods. -/
def seedFood (env : Env) : List Food :=
  (List.range 100).map (fun k => generateFood env (3 * k))

/-- The `createRoom` function: empty player map, 100 seeded foods, tick counter
zero. -/
def createRoom (env : Env) : Room :=
  ⟨[], seedFood env, 0⟩

/-- A freshly joined player: random spawn in the central 500-square, initial
target length with the body seeded as `INITIAL_LENGTH` copies of the spawn
position, random color, initial score, not boosting. -/
def newPlayer (env : Env) (i : Nat) (pid : Nat) (pname : String) : Player :=
  let px := env.rand i * 500 - 250
  let py := env.rand (i + 1) * 500 - 250
  { id := pid, name := pname, x := px, y := py, angle := 0
    length := INITIAL_LENGTH
    body := List.replicate INITIAL_LENGTH ⟨px, py⟩
    color := env.rand (i + 2) * 360
    score := INITIAL_SCORE, isBoosting := false }

/-- Assignment into a JS object: replace the value at an existing key in
place, or append a new key. -/
def insertPlayer (p : Player) : List Player → List Player
  | [] => [p]
  | q :: qs => if q.id = p.id then p :: qs else q :: insertPlayer p qs

/-- Registry lookup `rooms[roomId]`. -/
def lookupRoom (rid : Nat) (regs : Registry) : Option Room :=
  (regs.find? (fun e => e.1 == rid)).map (fun e => e.2)

/-- Assignment into the registry object. -/
def setRoom (rid : Nat) (r : Room) : Registry → Registry
  | [] => [(rid, r)]
  | e :: es => if e.1 = rid then (rid, r) :: es else e :: setRoom rid r es

/-- The `joinRoom` handler: create the room on first join with this id (the
seeding consumes random indices 0..299), then insert the new player. -/
def joinRoom (env : Env) (rid pid : Nat) (pname : String)
    (regs : Registry) : Registry :=
  match lookupRoom rid regs with
  | none =>
    let room := createRoom env
    setRoom rid
      { room with players := insertPlayer (newPlayer env 300 pid pname) room.players }
      regs
  | some room =>
    setRoom rid
      { room with players := insertPlayer (newPlayer env 0 pid pname) room.players }
      regs

/-- The `input` handler: set the player's angle if the room and player exist. -/
def inputOp (rid pid : Nat) (a : ℚ) (regs : Registry) : Registry :=
  match lookupRoom rid regs with
  | none => regs
  | some room =>
    setRoom rid
      { room with players :=
          room.players.map (fun q => if q.id = pid then { q with angle := a } else q) }
      regs

/-- The `boost` handler: set the player's boosting flag if the room and player
exist. -/
def boostOp (rid pid : Nat) (b : Bool) (regs : Registry) : Registry :=
  match lookupRoom rid regs with
  | none => regs
  | some room =>
    setRoom rid
      { room with players :=
          room.players.map (fun q => if q.id = pid then { q with isBoosting := b } else q) }
      regs

/-- The `disconnect` handler: delete the player from its room, and delete the
room itself when its player map becomes empty. -/
def disconnectOp (rid pid : Nat) (regs : Registry) : Registry :=
  match lookupRoom rid regs with
  | none => regs
  | some room =>
    if (room.players.filter (fun q => q.id != pid)).isEmpty then
      regs.filter (fun e => e.1 != rid)
    else
      setRoom rid
        { room with players := room.players.filter (fun q => q.id != pid) }
        regs

/-- One pass of the game loop over every room in the registry. -/
def tickAll (env : Env) (regs : Registry) : Registry :=
  regs.map (fun e => (e.1, (tick env e.2).room))

/-- An externally triggered server event. -/
inductive Op where
  | join (env : Env) (rid pid : Nat) (pname : String)
  | angleInput (rid pid : Nat) (a : ℚ)
  | boostInput (rid pid : Nat) (b : Bool)
  | leave (rid pid : Nat)
  | tickOp (env : Env)

/-- Dispatch one event against the registry. -/
def applyOp (regs : Registry) : Op → Registry
  | Op.join env rid pid pname => joinRoom env rid pid pname regs
  | Op.angleInput rid pid a => inputOp rid pid a regs
  | Op.boostInput rid pid b => boostOp rid pid b regs
  | Op.leave rid pid => disconnectOp rid pid regs
  | Op.tickOp env => tickAll env regs

/-- The registry reached from server start (empty registry) by a sequence of
events. -/
def reach (ops : List Op) : Registry :=
  ops.foldl applyOp []

/-!
Client-side reconciliation (public/game.js, `update`): for a player already
known locally, the rendered position is pulled toward the latest authoritative
snapshot position by an exponential low-pass filter with factor 0.1 per frame,
while angle, score, name, color and body are copied verbatim.
-/

/-- The client smoothing factor (`lerpFactor = 0.1`). -/
def lerpFactor : ℚ := 1 / 10

/-- One frame of the client interpolation for a locally known player `p`
against its snapshot target `t`. -/
def clientUpdate (p t : Player) : Player :=
  { p with
    x := p.x + (t.x - p.x) * lerpFactor
    y := p.y + (t.y - p.y) * lerpFactor
    angle := t.angle, score := t.score, name := t.name
    color := t.color, body := t.body }

/-- Concrete environment: zero trigonometric values (stationary players) and a
constant random stream. -/
def env0 : Env := ⟨fun _ => 0, fun _ => 0, fun _ => 1/2⟩

/-- Concrete player for the boost-timing scenario: boosting with score 11 and
its tail segment away from its head. -/
def c2Player : Player :=
  { id := 7, name := "b", x := 0, y := 0, angle := 0, length := 5,
    body := [⟨0, 0⟩, ⟨500, 500⟩], color := 120, score := 11, isBoosting := true }

/-- Concrete room for the boost-timing scenario: the next tick counter value is
5, a charging tick. -/
def c2Room : Room := ⟨[c2Player], [], 4⟩

/-- Concrete environment for the collision-snapshot scenario: a player with
angle 0 stands still, any other angle moves one speed unit along the x axis. -/
def c1Env : Env := ⟨fun a => if a = 0 then 0 else 1, fun _ => 0, fun _ => 9/10⟩

/-- Stationary player at (14, 0). -/
def c1A : Player :=
  { id := 1, name := "a", x := 14, y := 0, angle := 0, length := 5,
    body := List.replicate 5 ⟨14, 0⟩, color := 0, score := 100, isBoosting := false }

/-- Player at the origin about to move 5 units along the x axis. -/
def c1B : Player :=
  { id := 2, name := "b", x := 0, y := 0, angle := 1, length := 5,
    body := List.replicate 5 ⟨0, 0⟩, color := 30, score := 100, isBoosting := false }

/-- Concrete room for the collision-snapshot scenario. -/
def c1Room : Room := ⟨[c1A, c1B], [], 0⟩

/-- Environment whose constant random stream 9/10 spawns every joining player
at (200, 200) and every generated food at (800, 800). -/
def c3EnvJoin : Env := ⟨fun _ => 0, fun _ => 0, fun _ => 9/10⟩

/-- Two players join room 1 at the same spawn point, then one tick runs: the
overlapping players kill each other, emptying the room by the death path. -/
def c3Ops : List Op :=
  [Op.join c3EnvJoin 1 31 "a", Op.join c3EnvJoin 1 32 "b", Op.tickOp c3EnvJoin]

/-- Join environment for the pickup-exclusivity scenario: the first seeded food
lands at the origin, the rest at (800, 800), and the joining player spawns at
(-14, 0). -/
def c4EnvA : Env :=
  ⟨fun _ => 0, fun _ => 0,
    fun n => if n = 0 then 1/2 else if n = 1 then 1/2 else
      if n = 300 then 236/500 else if n = 301 then 1/2 else 9/10⟩

/-- Join environment for the second player of the pickup-exclusivity scenario:
spawn at (14, 0). -/
def c4EnvB : Env :=
  ⟨fun _ => 0, fun _ => 0,
    fun n => if n = 0 then 264/500 else if n = 1 then 1/2 else 9/10⟩

/-- Tick environment for the pickup-exclusivity scenario: stationary players,
replacement foods generated far away at (800, 800). -/
def c4EnvT : Env := ⟨fun _ => 0, fun _ => 0, fun _ => 9/10⟩

/-- Both players join room 1; their heads at (-14, 0) and (14, 0) are each
within the 20-unit pickup radius of the food at the origin. -/
def c4PreOps : List Op := [Op.join c4EnvA 1 21 "a", Op.join c4EnvB 1 22 "b"]

/-- The list of replacement foods pushed by a scan that eats `n` foods,
starting from random index `i` (each `generateFood` call consumes three
draws). -/
def spawnList (env : Env) (i : Nat) : Nat → List Food
  | 0 => []
  | n + 1 => generateFood env i :: spawnList env (i + 3) n

/-- The food scan performed inside one player's slice of the movement loop: it
runs at the player's post-movement head against the food list as left by the
boost handling. -/
def scanOf (env : Env) (tc : Nat) (p : Player) (food : List Food) (i : Nat) :
    List Food × Nat × Nat :=
  eatFood env (movePlayer env (boostSpeed p) (boostPlayer tc p)).pos
    (boostFood env tc p food i).1 (boostFood env tc p food i).2

/-- The movement-relevant part of a player: id, head position and body.  The
collision detection reads only this data, and within a tick it is determined
by the player's own pre-tick state (unlike length and score, which depend on
the shared food list). -/
structure Core where
  cid : Nat
  head : Pos
  segs : List Pos
deriving DecidableEq

/-- Core projection of a player. -/
def coreOf (p : Player) : Core := ⟨p.id, p.pos, p.body⟩

/-- A player's state after boost handling and movement, ignoring the shared
food list: the position and body of `stepPlayer`'s result coincide with this
player's. -/
def movedP (env : Env) (tc : Nat) (p : Player) : Player :=
  movePlayer env (boostSpeed p) (boostPlayer tc p)

/-- Collision test on cores only. -/
def isDeadCore (cs : List Core) (c : Core) : Bool :=
  cs.any (fun o => (o.cid != c.cid) && o.segs.any (fun s => closeTo c.head s 10))

/-- The dead-id list computed from cores only. -/
def deadIdsCore (cs : List Core) : List Nat :=
  (cs.filter (isDeadCore cs)).map Core.cid

/-- Uniqueness of the player-map keys: in JS the map is keyed by socket id, so
ids are unique; the embedding keeps this as an invariant of reachable rooms. -/
def NodupIds (r : Room) : Prop := (r.players.map Player.id).Nodup

/-- Per-player state invariant of reachable rooms: score at least 10, a
nonempty body no longer than the target length, and the head segment equal to
the current position. -/
def PlayerInv (p : Player) : Prop :=
  10 ≤ p.score ∧ 1 ≤ p.body.length ∧ p.body.length ≤ p.length ∧
    p.body.head? = some p.pos

/-- Room-level invariant: unique ids, at least the 100 seeded foods, and every
player satisfying the per-player invariant. -/
def RoomInv (r : Room) : Prop :=
  NodupIds r ∧ 100 ≤ r.food.length ∧ ∀ p ∈ r.players, PlayerInv p

/-- Registry-level invariant: every registered room satisfies the room
invariant. -/
def RegInv (regs : Registry) : Prop := ∀ e ∈ regs, RoomInv e.2

/-- A sequence of room ticks (the per-room game loop iterated, one environment
per tick). -/
def tickSeq (envs : List Env) (r : Room) : Room :=
  envs.foldl (fun s e => (tick e s).room) r

/-- The room as created by a first join of player 5 under `env0`. -/
def c3FreshRoom : Room := ⟨[newPlayer env0 300 5 "a"], seedFood env0, 0⟩

/-- The movement-loop result of one tick of a room. -/
def movedOf (env : Env) (r : Room) : MoveRes :=
  movePhase env (r.tickCount + 1) r.players r.food 0

/-- The dead players collected by the collision detection of one tick. -/
def tickDead (env : Env) (r : Room) : List Player :=
  (movedOf env r).players.filter
    (fun p => isDead (movedOf env r).players p)

/-- Clamping lands every rational in the arena interval. -/
theorem clampAxis_bounds (v : ℚ) :
    -(MAP_SIZE / 2) ≤ clampAxis v ∧ clampAxis v ≤ MAP_SIZE / 2 := by
  simp only [clampAxis, MAP_SIZE]
  split_ifs with h1 h2 h3 <;> push_neg at * <;> constructor <;> linarith

/-- Claim C8: for every player, every tick, any heading angle and any speed,
the position after the boundary-clamping step satisfies
`-MAP_SIZE/2 ≤ x ≤ MAP_SIZE/2` and `-MAP_SIZE/2 ≤ y ≤ MAP_SIZE/2`, where each
axis is clamped independently of the other (the boundary policy is clamping:
the player is neither bounced nor killed). -/
theorem c8_boundary_clamped (env : Env) (spd : ℚ) (p : Player) :
    (-(MAP_SIZE / 2) ≤ (movePlayer env spd p).x ∧
      (movePlayer env spd p).x ≤ MAP_SIZE / 2) ∧
    (-(MAP_SIZE / 2) ≤ (movePlayer env spd p).y ∧
      (movePlayer env spd p).y ≤ MAP_SIZE / 2) ∧
    (movePlayer env spd p).x = clampAxis (p.x + env.cosF p.angle * spd) ∧
    (movePlayer env spd p).y = clampAxis (p.y + env.sinF p.angle * spd) := by
  refine ⟨?_, ?_, rfl, rfl⟩ <;> exact clampAxis_bounds _

/-- Claim C9: when a snapshot target carries the same authoritative position as
the currently rendered position, the client's exponential interpolation
(factor 0.1 per frame) leaves the rendered position unchanged: the
authoritative position is a fixed point of the per-frame update, so a second
identical snapshot keeps the rendered position stable with no drift. -/
theorem c9_lerp_fixed_point (p t : Player) (hx : t.x = p.x) (hy : t.y = p.y) :
    (clientUpdate p t).x = p.x ∧ (clientUpdate p t).y = p.y ∧
    (clientUpdate (clientUpdate p t) t).x = p.x ∧
    (clientUpdate (clientUpdate p t) t).y = p.y := by
  simp [clientUpdate, hx, hy]

/-- Witness for claim C9 at a concrete player and snapshot. -/
theorem c9_lerp_fixed_point_witness :
    (clientUpdate
        { id := 1, name := "a", x := 3, y := 4, angle := 0, length := 5,
          body := [], color := 0, score := 100, isBoosting := false }
        { id := 1, name := "a", x := 3, y := 4, angle := 2, length := 6,
          body := [⟨3, 4⟩], color := 7, score := 110, isBoosting := true }).x = 3 ∧
    (clientUpdate
        { id := 1, name := "a", x := 3, y := 4, angle := 0, length := 5,
          body := [], color := 0, score := 100, isBoosting := false }
        { id := 1, name := "a", x := 3, y := 4, angle := 2, length := 6,
          body := [⟨3, 4⟩], color := 7, score := 110, isBoosting := true }).y = 4 := by
  have h := c9_lerp_fixed_point
    { id := 1, name := "a", x := 3, y := 4, angle := 0, length := 5,
      body := [], color := 0, score := 100, isBoosting := false }
    { id := 1, name := "a", x := 3, y := 4, angle := 2, length := 6,
      body := [⟨3, 4⟩], color := 7, score := 110, isBoosting := true }
    (by decide) (by decide)
  exact ⟨h.1, h.2.1⟩

/-- Counterexample to claim C1 as stated: in `c1Room`, player 1 never moves
(its post-movement head equals its pre-tick head (14, 0)), every pre-tick body
segment of the other player is at distance at least 10 from that head, and yet
the tick marks player 1 dead — the collision check runs against the other
player's post-movement segment positions of the same tick, not its
pre-tick-mutation positions. -/
theorem c1_checks_postmove_body :
    ((movePhase c1Env (c1Room.tickCount + 1) c1Room.players c1Room.food
        0).players.head?).map Player.pos = some ⟨14, 0⟩ ∧
    (c1Room.players.filter (fun o => o.id != 1)).all
      (fun o => o.body.all (fun s => ! closeTo ⟨14, 0⟩ s 10)) = true ∧
    Msg.dead 1 ∈ (tick c1Env c1Room).msgs := by
  decide

/-- Counterexample to claim C2 as stated: in `c2Room` the boosting player's
score drops from 11 to 10 (at or below the threshold) during the tick, yet the
tick ends with its boosting flag still set — the force-clear only happens at
the next tick's boost check. -/
theorem c2_flag_cleared_next_tick :
    (tick env0 c2Room).room.players.map (fun p => (p.score, p.isBoosting)) =
      [(10, true)] := by
  decide

set_option maxRecDepth 10000 in
/-- Counterexample to claim C3 as stated: after the two overlapping players of
`c3Ops` kill each other in the same tick, the room's player mapping is empty
but the room is still registered, and its food list is the stale one (100
seeds plus 6 death conversions), so a subsequent join with the same identifier
reuses the old state instead of a fresh room with a newly seeded food set. -/
theorem c3_death_leaves_empty_room :
    (lookupRoom 1 (reach c3Ops)).map (fun r => (r.players.length, r.food.length)) =
      some (0, 106) ∧
    (reach c3Ops).length = 1 ∧
    (lookupRoom 1 (reach (c3Ops ++ [Op.join c3EnvJoin 1 33 "c"]))).map
      (fun r => r.food.length) = some 106 := by
  decide

set_option maxRecDepth 10000 in
/-- Counterexample to claim C4 as stated: before the tick both players' heads,
at (-14, 0) and (14, 0), are within the 20-unit pickup radius of the food at
the origin, but after the tick only the first-processed player was awarded the
pickup (score 110); the second still has score 100 — simultaneous pickups of
one Food are not all honored. -/
theorem c4_pickup_is_exclusive :
    ((lookupRoom 1 (reach c4PreOps)).map (fun r =>
      (r.players.map (fun p => (p.x, p.y, p.score)),
        r.food.head?.map (fun f => closeTo ⟨14, 0⟩ ⟨f.x, f.y⟩ 20)))) =
      some ([((-14 : ℚ), (0 : ℚ), (100 : Int)), (14, 0, 100)], some true) ∧
    ((lookupRoom 1 (reach (c4PreOps ++ [Op.tickOp c4EnvT]))).map (fun r =>
      r.players.map (fun p => (p.x, p.score)))) =
      some [((-14 : ℚ), (110 : Int)), (14, 100)] := by
  decide

/-- Claim C2 (amended): while the boosting flag is set with score above the
minimum threshold 10, exactly 1 score point is deducted on every tick whose
room tick counter is divisible by 5 (and none on other ticks), with one Food
dropped within 5 units of the tail position on each axis and colored as the
player; the deduction never takes the score below 10 (in particular never
below 0), and whenever a tick's boost check sees the flag set with score at or
below 10 — i.e. from the tick after the score dropped — the flag is forcibly
cleared. -/
theorem c2_boost_economy (env : Env) (tc : Nat) (p : Player) (food : List Food)
    (i : Nat) (tail : Pos)
    (hb : p.isBoosting = true) (hs : 10 < p.score) (ht : tc % 5 = 0)
    (htail : p.body.getLast? = some tail)
    (hr1 : 0 ≤ env.rand i) (hr1b : env.rand i < 1)
    (hr2 : 0 ≤ env.rand (i + 1)) (hr2b : env.rand (i + 1) < 1) :
    ((boostPlayer tc p).score = p.score - 1 ∧ 10 ≤ (boostPlayer tc p).score) ∧
    (∃ f, (boostFood env tc p food i).1 = food ++ [f] ∧ f.color = p.color ∧
      |f.x - tail.x| ≤ 5 ∧ |f.y - tail.y| ≤ 5) ∧
    (∀ q : Player, ∀ tc' : Nat, q.score ≤ 10 →
      (boostPlayer tc' q).isBoosting = false) ∧
    (∀ q : Player, ∀ tc' : Nat, 0 ≤ q.score → 0 ≤ (boostPlayer tc' q).score) ∧
    (∀ q : Player, ∀ tc' : Nat, tc' % 5 ≠ 0 →
      (boostPlayer tc' q).score = q.score ∧
      (boostFood env tc' q food i).1 = food) := by
  refine ⟨⟨?_, ?_⟩, ?_, ?_, ?_, ?_⟩
  · simp [boostPlayer, hb, hs, ht]
  · simp [boostPlayer, hb, hs, ht]; omega
  · refine ⟨{ x := tail.x + (env.rand i * 10 - 5),
              y := tail.y + (env.rand (i + 1) * 10 - 5), color := p.color },
      ?_, rfl, ?_, ?_⟩
    · simp [boostFood, hb, hs, ht, htail]
    · rw [abs_le]; constructor <;> [skip; skip] <;> simp <;> linarith
    · rw [abs_le]; constructor <;> [skip; skip] <;> simp <;> linarith
  · intro q tc' hq
    by_cases hqb : q.isBoosting <;> simp [boostPlayer, hqb, not_lt_of_le hq]
  · intro q tc' hq
    unfold boostPlayer
    split_ifs with h1 h2
    · rw [Bool.and_eq_true, decide_eq_true_eq] at h1
      show 0 ≤ q.score - 1
      omega
    · exact hq
    · exact hq
  · intro q tc' hq
    unfold boostPlayer boostFood
    constructor
    · split
      · simp [hq]
      · rfl
    · split
      · simp [hq]
      · rfl

/-- Witness for claim C2 at the concrete boosting player `c2Player` on a
charging tick. -/
theorem c2_boost_economy_witness :
    (c2Player.isBoosting = true ∧ 10 < c2Player.score ∧ 5 % 5 = 0 ∧
      c2Player.body.getLast? = some ⟨500, 500⟩ ∧
      0 ≤ env0.rand 0 ∧ env0.rand 0 < 1) ∧
    (((boostPlayer 5 c2Player).score = c2Player.score - 1 ∧
        10 ≤ (boostPlayer 5 c2Player).score) ∧
      (∃ f, (boostFood env0 5 c2Player [] 0).1 = [] ++ [f] ∧
        f.color = c2Player.color ∧ |f.x - (500 : ℚ)| ≤ 5 ∧ |f.y - (500 : ℚ)| ≤ 5) ∧
      (∀ q : Player, ∀ tc' : Nat, q.score ≤ 10 →
        (boostPlayer tc' q).isBoosting = false) ∧
      (∀ q : Player, ∀ tc' : Nat, 0 ≤ q.score → 0 ≤ (boostPlayer tc' q).score) ∧
      (∀ q : Player, ∀ tc' : Nat, tc' % 5 ≠ 0 →
        (boostPlayer tc' q).score = q.score ∧
        (boostFood env0 tc' q [] 0).1 = [])) :=
  ⟨⟨by decide, by decide, by decide, by decide, by decide, by decide⟩,
    c2_boost_economy env0 5 c2Player [] 0 ⟨500, 500⟩ (by decide) (by decide)
      (by decide) (by decide) (by decide) (by decide) (by decide) (by decide)⟩

/-- Unfolding of the reversed pickup scan: kept foods are the filtered
traversal, the eaten count is the `countP`, the random index advances by three
per eaten food, and the replacements are the corresponding `spawnList`. -/
theorem eatRev_spec (env : Env) (hd : Pos) :
    ∀ (l : List Food) (i : Nat),
      (eatRev env hd l i).kept = l.filter (fun f => ! nearHead hd f) ∧
      (eatRev env hd l i).eaten = l.countP (nearHead hd) ∧
      (eatRev env hd l i).idx = i + 3 * l.countP (nearHead hd) ∧
      (eatRev env hd l i).spawned = spawnList env i (l.countP (nearHead hd))
  | [], i => by simp [eatRev, spawnList]
  | f :: rest, i => by
    rcases eatRev_spec env hd rest (i + 3) with ⟨h1, h2, h3, h4⟩
    rcases eatRev_spec env hd rest i with ⟨g1, g2, g3, g4⟩
    by_cases hc : nearHead hd f
    · refine ⟨?_, ?_, ?_, ?_⟩
      · simp [eatRev, hc, h1]
      · simp [eatRev, hc, h2, List.countP_cons]
      · simp [eatRev, hc, h3, List.countP_cons]; omega
      · simp [eatRev, hc, h4, List.countP_cons, spawnList]
    · refine ⟨?_, ?_, ?_, ?_⟩
      · simp [eatRev, hc, g1]
      · simp [eatRev, hc, g2, List.countP_cons]
      · simp [eatRev, hc, g3, List.countP_cons]
      · simp [eatRev, hc, g4, List.countP_cons]

/-- Closed form of one pickup scan: within-radius foods are dropped, the
replacements are appended, the random index advances by three per eaten food,
and the eaten count is the number of within-radius foods. -/
theorem eatFood_spec (env : Env) (hd : Pos) (food : List Food) (i : Nat) :
    eatFood env hd food i =
      (food.filter (fun f => ! nearHead hd f) ++
          spawnList env i (food.countP (nearHead hd)),
        i + 3 * food.countP (nearHead hd), food.countP (nearHead hd)) := by
  rcases eatRev_spec env hd food.reverse i with ⟨h1, h2, h3, h4⟩
  unfold eatFood
  show ((eatRev env hd food.reverse i).kept.reverse ++
      (eatRev env hd food.reverse i).spawned,
    (eatRev env hd food.reverse i).idx, (eatRev env hd food.reverse i).eaten) = _
  rw [h1, h2, h3, h4]
  have hc : food.reverse.countP (nearHead hd) = food.countP (nearHead hd) := by
    simp [List.countP_eq_length_filter]
  rw [hc]
  simp

/-- Boost handling does not change the target length. -/
theorem boostPlayer_length (tc : Nat) (p : Player) :
    (boostPlayer tc p).length = p.length := by
  unfold boostPlayer; split_ifs <;> rfl

/-- Boost handling does not change the body. -/
theorem boostPlayer_body (tc : Nat) (p : Player) :
    (boostPlayer tc p).body = p.body := by
  unfold boostPlayer; split_ifs <;> rfl

/-- Boost handling does not change the id. -/
theorem boostPlayer_id (tc : Nat) (p : Player) :
    (boostPlayer tc p).id = p.id := by
  unfold boostPlayer; split_ifs <;> rfl

/-- Boost handling does not change the position. -/
theorem boostPlayer_xy (tc : Nat) (p : Player) :
    (boostPlayer tc p).x = p.x ∧ (boostPlayer tc p).y = p.y ∧
      (boostPlayer tc p).angle = p.angle := by
  unfold boostPlayer; split_ifs <;> exact ⟨rfl, rfl, rfl⟩

/-- Claim C4 (amended): within a tick the players scan the shared food list in
processing order.  A player's scan consumes exactly the foods of the current
list within the 20-unit radius of its head — each removed from the list and
replaced 1:1 by a spawned food — and awards `+1` target length and `+10` score
per food eaten; the next player's scan then runs against the already-mutated
list, so a food consumed by an earlier-processed player is no longer there to
be picked up — simultaneous pickups are exclusive, first-processed wins. -/
theorem c4_scan_consumes_and_threads (env : Env) (hd : Pos) (food : List Food)
    (i tc : Nat) (p : Player) (ps : List Player) :
    ((eatFood env hd food i).1 =
        food.filter (fun f => ! nearHead hd f) ++
          spawnList env i (food.countP (nearHead hd)) ∧
      (eatFood env hd food i).2.2 = food.countP (nearHead hd)) ∧
    (∀ f ∈ food, nearHead hd f = true →
      f ∉ food.filter (fun g => ! nearHead hd g)) ∧
    ((stepPlayer env tc p food i).player.length =
        p.length + (scanOf env tc p food i).2.2 ∧
      (stepPlayer env tc p food i).player.score =
        (boostPlayer tc p).score + 10 * (scanOf env tc p food i).2.2 ∧
      (stepPlayer env tc p food i).food = (scanOf env tc p food i).1) ∧
    (movePhase env tc (p :: ps) food i).players =
      (stepPlayer env tc p food i).player ::
        (movePhase env tc ps (stepPlayer env tc p food i).food
          (stepPlayer env tc p food i).idx).players := by
  refine ⟨⟨?_, ?_⟩, ?_, ⟨?_, ?_, ?_⟩, rfl⟩
  · rw [eatFood_spec]
  · rw [eatFood_spec]
  · intro f hf hnear
    simp [List.mem_filter, hnear]
  · show (movePlayer env (boostSpeed p) (boostPlayer tc p)).length +
        (scanOf env tc p food i).2.2 = _
    rw [show (movePlayer env (boostSpeed p) (boostPlayer tc p)).length =
          p.length from boostPlayer_length tc p]
  · rfl
  · rfl

/-- Witness for claim C4 at a concrete scan: one food within radius of the
head at the origin, scanned by the stationary player `c1A`. -/
theorem c4_scan_consumes_and_threads_witness :
    ((eatFood env0 ⟨0, 0⟩ [⟨1, 1, 5⟩] 0).1 =
        List.filter (fun f => ! nearHead ⟨0, 0⟩ f) [⟨1, 1, 5⟩] ++
          spawnList env0 0 (List.countP (nearHead ⟨0, 0⟩) [⟨1, 1, 5⟩]) ∧
      (eatFood env0 ⟨0, 0⟩ [⟨1, 1, 5⟩] 0).2.2 =
        List.countP (nearHead ⟨0, 0⟩) [⟨1, 1, 5⟩]) ∧
    (∀ f ∈ [(⟨1, 1, 5⟩ : Food)], nearHead ⟨0, 0⟩ f = true →
      f ∉ List.filter (fun g => ! nearHead ⟨0, 0⟩ g) [(⟨1, 1, 5⟩ : Food)]) ∧
    ((stepPlayer env0 1 c1A [⟨1, 1, 5⟩] 0).player.length =
        c1A.length + (scanOf env0 1 c1A [⟨1, 1, 5⟩] 0).2.2 ∧
      (stepPlayer env0 1 c1A [⟨1, 1, 5⟩] 0).player.score =
        (boostPlayer 1 c1A).score + 10 * (scanOf env0 1 c1A [⟨1, 1, 5⟩] 0).2.2 ∧
      (stepPlayer env0 1 c1A [⟨1, 1, 5⟩] 0).food =
        (scanOf env0 1 c1A [⟨1, 1, 5⟩] 0).1) ∧
    (movePhase env0 1 [c1A] [⟨1, 1, 5⟩] 0).players =
      (stepPlayer env0 1 c1A [⟨1, 1, 5⟩] 0).player ::
        (movePhase env0 1 [] (stepPlayer env0 1 c1A [⟨1, 1, 5⟩] 0).food
          (stepPlayer env0 1 c1A [⟨1, 1, 5⟩] 0).idx).players :=
  c4_scan_consumes_and_threads env0 ⟨0, 0⟩ [⟨1, 1, 5⟩] 0 1 c1A []


/-- The player emerging from one movement-loop iteration has the core of
`movedP`: its id, position and body do not depend on the shared food list. -/
theorem stepPlayer_core (env : Env) (tc : Nat) (p : Player) (food : List Food)
    (i : Nat) :
    coreOf (stepPlayer env tc p food i).player = coreOf (movedP env tc p) := rfl

/-- The id is preserved by boost handling and movement. -/
theorem movedP_id (env : Env) (tc : Nat) (p : Player) :
    (movedP env tc p).id = p.id := by
  show (boostPlayer tc p).id = p.id
  exact boostPlayer_id tc p

/-- Cores of the movement-loop output: each player's core is that of its own
`movedP`, independent of the food list, the random index, and the other
players. -/
theorem movePhase_core (env : Env) (tc : Nat) :
    ∀ (ps : List Player) (food : List Food) (i : Nat),
      (movePhase env tc ps food i).players.map coreOf =
        ps.map (fun p => coreOf (movedP env tc p))
  | [], food, i => rfl
  | p :: ps, food, i => by
    show coreOf (stepPlayer env tc p food i).player ::
        (movePhase env tc ps _ _).players.map coreOf = _
    rw [stepPlayer_core, movePhase_core env tc ps]
    rfl

/-- Any-over-map, specialized helper. -/
theorem any_over_map {α β : Type} (l : List α) (f : α → β) (g : β → Bool) :
    (l.map f).any g = l.any (fun x => g (f x)) := by
  induction l with
  | nil => rfl
  | cons a t ih => simp [ih]

/-- Filter-over-map, specialized helper. -/
theorem filter_over_map {α β : Type} (l : List α) (f : α → β) (g : β → Bool) :
    (l.map f).filter g = (l.filter (fun x => g (f x))).map f := by
  induction l with
  | nil => rfl
  | cons a t ih =>
    by_cases h : g (f a) <;> simp [h, ih]

/-- The collision test factors through cores. -/
theorem isDead_core (ps : List Player) (p : Player) :
    isDead ps p = isDeadCore (ps.map coreOf) (coreOf p) := by
  unfold isDead isDeadCore hitsBody
  rw [any_over_map]
  rfl

/-- The dead-id list factors through cores. -/
theorem deadIds_core (ps : List Player) :
    deadIds ps = deadIdsCore (ps.map coreOf) := by
  unfold deadIds deadIdsCore
  rw [filter_over_map, List.map_map]
  have h : ps.filter (fun p => isDeadCore (ps.map coreOf) (coreOf p)) =
      ps.filter (fun p => isDead ps p) := by
    apply List.filter_congr
    intro p _
    exact (isDead_core ps p).symm
  rw [h]
  rfl

/-- Membership in the core dead-id list, as an explicit collision condition. -/
theorem mem_deadIdsCore (cs : List Core) (q : Nat) :
    q ∈ deadIdsCore cs ↔
      ∃ c ∈ cs, c.cid = q ∧ ∃ o ∈ cs, o.cid ≠ c.cid ∧
        ∃ s ∈ o.segs, closeTo c.head s 10 = true := by
  unfold deadIdsCore isDeadCore
  rw [List.mem_map]
  constructor
  · rintro ⟨c, hmem, hq⟩
    rw [List.mem_filter] at hmem
    rcases hmem with ⟨hcs, hdead⟩
    rw [List.any_eq_true] at hdead
    rcases hdead with ⟨o, ho, hcond⟩
    rw [Bool.and_eq_true, bne_iff_ne, List.any_eq_true] at hcond
    rcases hcond with ⟨hne, s, hs, hcl⟩
    exact ⟨c, hcs, hq, o, ho, hne, s, hs, hcl⟩
  · rintro ⟨c, hcs, hq, o, ho, hne, s, hs, hcl⟩
    refine ⟨c, ?_, hq⟩
    rw [List.mem_filter]
    refine ⟨hcs, ?_⟩
    rw [List.any_eq_true]
    refine ⟨o, ho, ?_⟩
    rw [Bool.and_eq_true, bne_iff_ne, List.any_eq_true]
    exact ⟨hne, s, hs, hcl⟩

/-- Characterization of the dead set computed after the movement phase: a
player is marked dead exactly when some other player's post-movement body has
a segment within the collision radius of its own post-movement head —
regardless of the shared food list, of the random index, and of any death
resolution (which only happens afterwards). -/
theorem mem_deadIds_movePhase (env : Env) (tc : Nat) (ps : List Player)
    (food : List Food) (i : Nat) (q : Nat) :
    q ∈ deadIds (movePhase env tc ps food i).players ↔
      ∃ p ∈ ps, p.id = q ∧ ∃ o ∈ ps, o.id ≠ p.id ∧
        ∃ s ∈ (movedP env tc o).body,
          closeTo (movedP env tc p).pos s 10 = true := by
  rw [deadIds_core, movePhase_core, mem_deadIdsCore]
  constructor
  · rintro ⟨c, hc, hq, o, ho, hne, s, hs, hcl⟩
    rw [List.mem_map] at hc ho
    rcases hc with ⟨p, hp, rfl⟩
    rcases ho with ⟨o', ho', rfl⟩
    refine ⟨p, hp, ?_, o', ho', ?_, s, hs, hcl⟩
    · rw [← movedP_id env tc p]; exact hq
    · intro hcontra
      apply hne
      show (movedP env tc o').id = (movedP env tc p).id
      rw [movedP_id, movedP_id, hcontra]
  · rintro ⟨p, hp, hq, o, ho, hne, s, hs, hcl⟩
    refine ⟨coreOf (movedP env tc p), List.mem_map.mpr ⟨p, hp, rfl⟩, ?_,
      coreOf (movedP env tc o), List.mem_map.mpr ⟨o, ho, rfl⟩, ?_, s, hs, hcl⟩
    · show (movedP env tc p).id = q
      rw [movedP_id]; exact hq
    · show (movedP env tc o).id ≠ (movedP env tc p).id
      rw [movedP_id, movedP_id]; exact hne

/-- Claim C1 (amended): the collision check of a player's head against another
player's body uses the other player's post-movement, pre-death segment
positions of the current tick.  Consequently whether a given id is marked dead
is the same for any permutation of the player processing order and for any
shared food state, and is characterized by the post-movement snapshot alone —
in particular it cannot be affected by deaths resolved within the same tick,
which are only applied after the whole dead set is collected. -/
theorem c1_postmove_snapshot_order_independent (env : Env) (tc : Nat)
    (ps ps' : List Player) (food food' : List Food) (i i' : Nat)
    (hperm : List.Perm ps ps') (q : Nat) :
    (q ∈ deadIds (movePhase env tc ps food i).players ↔
      q ∈ deadIds (movePhase env tc ps' food' i').players) ∧
    (q ∈ deadIds (movePhase env tc ps food i).players ↔
      ∃ p ∈ ps, p.id = q ∧ ∃ o ∈ ps, o.id ≠ p.id ∧
        ∃ s ∈ (movedP env tc o).body,
          closeTo (movedP env tc p).pos s 10 = true) := by
  have h1 := mem_deadIds_movePhase env tc ps food i q
  have h2 := mem_deadIds_movePhase env tc ps' food' i' q
  refine ⟨?_, h1⟩
  rw [h1, h2]
  constructor
  · rintro ⟨p, hp, hq, o, ho, hne, s, hs, hcl⟩
    exact ⟨p, hperm.subset hp, hq, o, hperm.subset ho, hne, s, hs, hcl⟩
  · rintro ⟨p, hp, hq, o, ho, hne, s, hs, hcl⟩
    exact ⟨p, hperm.symm.subset hp, hq, o, hperm.symm.subset ho, hne, s, hs, hcl⟩

/-- Witness for claim C1: the two-player room of the collision scenario,
processed in both orders, with the same dead set. -/
theorem c1_postmove_snapshot_order_independent_witness :
    List.Perm [c1A, c1B] [c1B, c1A] ∧
    ((1 ∈ deadIds (movePhase c1Env 1 [c1A, c1B] [] 0).players ↔
      1 ∈ deadIds (movePhase c1Env 1 [c1B, c1A] [⟨3, 3, 3⟩] 7).players) ∧
    (1 ∈ deadIds (movePhase c1Env 1 [c1A, c1B] [] 0).players ↔
      ∃ p ∈ [c1A, c1B], p.id = 1 ∧ ∃ o ∈ [c1A, c1B], o.id ≠ p.id ∧
        ∃ s ∈ (movedP c1Env 1 o).body,
          closeTo (movedP c1Env 1 p).pos s 10 = true)) :=
  ⟨by decide,
    c1_postmove_snapshot_order_independent c1Env 1 [c1A, c1B] [c1B, c1A]
      [] [⟨3, 3, 3⟩] 0 7 (by decide) 1⟩

/-- A spawn list of `n` replacements has length `n`. -/
theorem spawnList_length (env : Env) : ∀ (i n : Nat), (spawnList env i n).length = n
  | _, 0 => rfl
  | i, n + 1 => by simp [spawnList, spawnList_length env (i + 3) n]

/-- Every consumed food is replaced 1:1 within the same scan: the food list
keeps its length (helper: filtered-out plus matching counts). -/
theorem filterNot_length_add_countP {α : Type} (g : α → Bool) :
    ∀ l : List α, (l.filter (fun x => ! g x)).length + l.countP g = l.length
  | [] => rfl
  | a :: t => by
    have ih := filterNot_length_add_countP g t
    by_cases h : g a
    · simp [h, List.countP_cons]; omega
    · simp [h, List.countP_cons]; omega

/-- Every consumed food is replaced 1:1 within the same scan: the food list
keeps its length. -/
theorem eatFood_length (env : Env) (hd : Pos) (food : List Food) (i : Nat) :
    (eatFood env hd food i).1.length = food.length := by
  rw [eatFood_spec]
  show (List.filter _ food ++ spawnList env i _).length = _
  rw [List.length_append, spawnList_length]
  exact filterNot_length_add_countP (nearHead hd) food

/-- The boost score check only ever deducts from a score strictly above 10, so
a score at least 10 stays at least 10. -/
theorem boostPlayer_score_ge (tc : Nat) (p : Player) (h : 10 ≤ p.score) :
    10 ≤ (boostPlayer tc p).score := by
  unfold boostPlayer
  split_ifs with h1 h2
  · rw [Bool.and_eq_true, decide_eq_true_eq] at h1
    show 10 ≤ p.score - 1
    omega
  · exact h
  · exact h

/-- Boost residue only appends to the food list. -/
theorem boostFood_length (env : Env) (tc : Nat) (p : Player) (food : List Food)
    (i : Nat) : food.length ≤ (boostFood env tc p food i).1.length := by
  unfold boostFood
  split_ifs
  · cases p.body.getLast? <;> simp
  · exact Nat.le_refl _
  · exact Nat.le_refl _

/-- Boost handling and movement preserve the target length. -/
theorem movedP_length (env : Env) (tc : Nat) (p : Player) :
    (movedP env tc p).length = p.length := by
  show (boostPlayer tc p).length = p.length
  exact boostPlayer_length tc p

/-- The body produced by the movement step: the new head is prepended and the
body trimmed to the target length. -/
theorem movedP_body_length (env : Env) (tc : Nat) (p : Player) :
    (movedP env tc p).body.length = min p.length (p.body.length + 1) := by
  show ((Pos.mk _ _ :: (boostPlayer tc p).body).take
      (boostPlayer tc p).length).length = _
  rw [List.length_take, boostPlayer_length, boostPlayer_body]
  simp

/-- With a positive target length, the post-movement head segment is the
post-movement position. -/
theorem movedP_head (env : Env) (tc : Nat) (p : Player) (h : 1 ≤ p.length) :
    (movedP env tc p).body.head? = some (movedP env tc p).pos := by
  show ((Pos.mk _ _ :: (boostPlayer tc p).body).take
      (boostPlayer tc p).length).head? = _
  rw [boostPlayer_length]
  obtain ⟨n, hn⟩ : ∃ n, p.length = n + 1 := ⟨p.length - 1, by omega⟩
  rw [hn, List.take_succ_cons]
  rfl

/-- The id of the player leaving one movement-loop iteration. -/
theorem stepPlayer_player_id (env : Env) (tc : Nat) (p : Player)
    (food : List Food) (i : Nat) :
    (stepPlayer env tc p food i).player.id = p.id := by
  show (movedP env tc p).id = p.id
  exact movedP_id env tc p

/-- The body of the player leaving one movement-loop iteration. -/
theorem stepPlayer_player_body (env : Env) (tc : Nat) (p : Player)
    (food : List Food) (i : Nat) :
    (stepPlayer env tc p food i).player.body = (movedP env tc p).body := rfl

/-- The length of the player leaving one movement-loop iteration: the target
length grows by the eaten count. -/
theorem stepPlayer_player_length (env : Env) (tc : Nat) (p : Player)
    (food : List Food) (i : Nat) :
    (stepPlayer env tc p food i).player.length =
      p.length + (scanOf env tc p food i).2.2 := by
  show (movedP env tc p).length + (scanOf env tc p food i).2.2 = _
  rw [movedP_length]

/-- A score at least 10 stays at least 10 through one movement-loop
iteration. -/
theorem stepPlayer_score_ge (env : Env) (tc : Nat) (p : Player)
    (food : List Food) (i : Nat) (h : 10 ≤ p.score) :
    10 ≤ (stepPlayer env tc p food i).player.score := by
  show 10 ≤ (movedP env tc p).score + 10 * ((scanOf env tc p food i).2.2 : Int)
  have h1 : 10 ≤ (movedP env tc p).score := by
    show 10 ≤ (boostPlayer tc p).score
    exact boostPlayer_score_ge tc p h
  omega

/-- The food list never shrinks through one movement-loop iteration. -/
theorem stepPlayer_food_length (env : Env) (tc : Nat) (p : Player)
    (food : List Food) (i : Nat) :
    food.length ≤ (stepPlayer env tc p food i).food.length := by
  show food.length ≤ (eatFood env _ (boostFood env tc p food i).1
      (boostFood env tc p food i).2).1.length
  rw [eatFood_length]
  exact boostFood_length env tc p food i

/-- The per-player invariant survives one movement-loop iteration. -/
theorem stepPlayer_playerInv (env : Env) (tc : Nat) (p : Player)
    (food : List Food) (i : Nat) (h : PlayerInv p) :
    PlayerInv (stepPlayer env tc p food i).player := by
  obtain ⟨hs, hb1, hb2, hh⟩ := h
  have hl : 1 ≤ p.length := le_trans hb1 hb2
  refine ⟨stepPlayer_score_ge env tc p food i hs, ?_, ?_, ?_⟩
  · rw [stepPlayer_player_body, movedP_body_length]
    omega
  · rw [stepPlayer_player_body, movedP_body_length, stepPlayer_player_length]
    omega
  · rw [stepPlayer_player_body]
    show (movedP env tc p).body.head? = some (movedP env tc p).pos
    exact movedP_head env tc p hl

/-- Every player leaving the movement loop is the image of a pre-tick player
under one movement-loop iteration (for some intermediate food list and random
index). -/
theorem movePhase_players_mem (env : Env) (tc : Nat) :
    ∀ (ps : List Player) (food : List Food) (i : Nat) (q : Player),
      q ∈ (movePhase env tc ps food i).players →
      ∃ p ∈ ps, ∃ f j, q = (stepPlayer env tc p f j).player
  | [], food, i, q => by intro hq; simp [movePhase] at hq
  | p :: ps, food, i, q => by
    intro hq
    rcases List.mem_cons.mp hq with h | h
    · exact ⟨p, List.mem_cons_self p ps, food, i, h⟩
    · rcases movePhase_players_mem env tc ps
        (stepPlayer env tc p food i).food (stepPlayer env tc p food i).idx q h
        with ⟨p', hp', f, j, hh⟩
      exact ⟨p', List.mem_cons_of_mem p hp', f, j, hh⟩

/-- The movement loop preserves the id sequence of the player map. -/
theorem movePhase_ids (env : Env) (tc : Nat) :
    ∀ (ps : List Player) (food : List Food) (i : Nat),
      (movePhase env tc ps food i).players.map Player.id = ps.map Player.id
  | [], _, _ => rfl
  | p :: ps, food, i => by
    show (stepPlayer env tc p food i).player.id ::
        (movePhase env tc ps _ _).players.map Player.id = _
    rw [stepPlayer_player_id, movePhase_ids]
    rfl

/-- The food list never shrinks through the movement loop. -/
theorem movePhase_food_length (env : Env) (tc : Nat) :
    ∀ (ps : List Player) (food : List Food) (i : Nat),
      food.length ≤ (movePhase env tc ps food i).food.length
  | [], _, _ => Nat.le_refl _
  | p :: ps, food, i =>
    le_trans (stepPlayer_food_length env tc p food i)
      (movePhase_food_length env tc ps (stepPlayer env tc p food i).food
        (stepPlayer env tc p food i).idx)

/-- Death resolution only removes players: the surviving map is a sublist of
the post-movement one. -/
theorem removeDead_players_sublist :
    ∀ (ids : List Nat) (ps : List Player) (food : List Food),
      (removeDead ids ps food).1.Sublist ps
  | [], ps, food => List.Sublist.refl ps
  | pid :: rest, ps, food => by
    unfold removeDead
    cases h : ps.find? (fun q => q.id == pid) with
    | none => exact removeDead_players_sublist rest ps food
    | some p =>
      exact (removeDead_players_sublist rest
        (ps.filter (fun q => q.id != pid)) (food ++ explode p)).trans
        (List.filter_sublist ps)

/-- Death resolution only appends food. -/
theorem removeDead_food_length :
    ∀ (ids : List Nat) (ps : List Player) (food : List Food),
      food.length ≤ (removeDead ids ps food).2.1.length
  | [], ps, food => Nat.le_refl _
  | pid :: rest, ps, food => by
    unfold removeDead
    cases h : ps.find? (fun q => q.id == pid) with
    | none => exact removeDead_food_length rest ps food
    | some p =>
      refine le_trans ?_ (removeDead_food_length rest
        (ps.filter (fun q => q.id != pid)) (food ++ explode p))
      rw [List.length_append]
      omega

/-- Every surviving player of a tick is the image of a pre-tick player under
one movement-loop iteration. -/
theorem tick_players_mem (env : Env) (r : Room) (q : Player)
    (hq : q ∈ (tick env r).room.players) :
    ∃ p ∈ r.players, ∃ f j,
      q = (stepPlayer env (r.tickCount + 1) p f j).player := by
  have h1 : q ∈ (movePhase env (r.tickCount + 1) r.players r.food 0).players :=
    (removeDead_players_sublist _ _ _).subset hq
  exact movePhase_players_mem env (r.tickCount + 1) r.players r.food 0 q h1

/-- The food count never decreases across a tick. -/
theorem tick_food_length (env : Env) (r : Room) :
    r.food.length ≤ (tick env r).room.food.length :=
  le_trans (movePhase_food_length env (r.tickCount + 1) r.players r.food 0)
    (removeDead_food_length _ _ _)

/-- Ticks preserve id uniqueness. -/
theorem tick_nodup (env : Env) (r : Room) (h : NodupIds r) :
    NodupIds (tick env r).room := by
  unfold NodupIds at *
  have hm : (movePhase env (r.tickCount + 1) r.players r.food 0).players.map
      Player.id = r.players.map Player.id :=
    movePhase_ids env (r.tickCount + 1) r.players r.food 0
  have hsub : ((tick env r).room.players.map Player.id).Sublist
      ((movePhase env (r.tickCount + 1) r.players r.food 0).players.map
        Player.id) :=
    (removeDead_players_sublist _ _ _).map Player.id
  rw [hm] at hsub
  exact h.sublist hsub

/-- Ticks preserve the per-player invariant. -/
theorem tick_playersInv (env : Env) (r : Room)
    (h : ∀ p ∈ r.players, PlayerInv p) :
    ∀ q ∈ (tick env r).room.players, PlayerInv q := by
  intro q hq
  obtain ⟨p, hp, f, j, rfl⟩ := tick_players_mem env r q hq
  exact stepPlayer_playerInv env (r.tickCount + 1) p f j (h p hp)

/-- Ticks preserve the room invariant. -/
theorem tick_roomInv (env : Env) (r : Room) (h : RoomInv r) :
    RoomInv (tick env r).room :=
  ⟨tick_nodup env r h.1, le_trans h.2.1 (tick_food_length env r),
    tick_playersInv env r h.2.2⟩

/-- The seeded food list of a fresh room has the fixed initial count 100. -/
theorem seedFood_length (env : Env) : (seedFood env).length = 100 := by
  simp [seedFood]

/-- A freshly joined player satisfies the per-player invariant. -/
theorem newPlayer_inv (env : Env) (i : Nat) (pid : Nat) (pname : String) :
    PlayerInv (newPlayer env i pid pname) := by
  refine ⟨?_, ?_, ?_, ?_⟩
  · show (10 : Int) ≤ INITIAL_SCORE
    decide
  · simp [newPlayer, INITIAL_LENGTH]
  · simp [newPlayer]
  · simp [newPlayer, INITIAL_LENGTH, Player.pos, List.replicate_succ]

/-- Object assignment either replaces or appends: every member of the updated
map is the assigned player or an old member. -/
theorem insertPlayer_mem (p : Player) :
    ∀ (ps : List Player) (q : Player), q ∈ insertPlayer p ps →
      q = p ∨ q ∈ ps
  | [], q => by
    intro hq
    rcases List.mem_singleton.mp hq with h
    exact Or.inl h
  | a :: as, q => by
    intro hq
    unfold insertPlayer at hq
    split at hq
    · rcases List.mem_cons.mp hq with h | h
      · exact Or.inl h
      · exact Or.inr (List.mem_cons_of_mem a h)
    · rcases List.mem_cons.mp hq with h | h
      · exact Or.inr (h ▸ List.mem_cons_self a as)
      · rcases insertPlayer_mem p as q h with h' | h'
        · exact Or.inl h'
        · exact Or.inr (List.mem_cons_of_mem a h')

/-- Object assignment preserves id uniqueness of the player map. -/
theorem insertPlayer_nodup (p : Player) :
    ∀ ps : List Player, (ps.map Player.id).Nodup →
      ((insertPlayer p ps).map Player.id).Nodup
  | [], _ => by simp [insertPlayer]
  | a :: as, h => by
    rw [List.map_cons, List.nodup_cons] at h
    unfold insertPlayer
    split
    · rename_i heq
      rw [List.map_cons, List.nodup_cons]
      exact ⟨by rw [← heq]; exact h.1, h.2⟩
    · rename_i hne
      rw [List.map_cons, List.nodup_cons]
      refine ⟨?_, insertPlayer_nodup p as h.2⟩
      intro hcontra
      rw [List.mem_map] at hcontra
      rcases hcontra with ⟨q, hq, hqid⟩
      rcases insertPlayer_mem p as q hq with rfl | hqin
      · exact hne (by rw [hqid])
      · exact h.1 (List.mem_map.mpr ⟨q, hqin, hqid⟩)

/-- A registry lookup under the registry invariant yields an invariant
room. -/
theorem lookupRoom_roomInv (regs : Registry) (rid : Nat) (room : Room)
    (hreg : RegInv regs) (h : lookupRoom rid regs = some room) :
    RoomInv room := by
  unfold lookupRoom at h
  cases hf : regs.find? (fun e => e.1 == rid) with
  | none => rw [hf] at h; exact Option.noConfusion h
  | some e =>
    rw [hf] at h
    injection h with h2
    rw [← h2]
    exact hreg e (List.mem_of_find?_eq_some hf)

/-- Registry assignment preserves the registry invariant when the assigned
room is invariant. -/
theorem setRoom_regInv (rid : Nat) (room : Room) :
    ∀ regs : Registry, RegInv regs → RoomInv room →
      RegInv (setRoom rid room regs)
  | [], _, hroom => by
    intro e he
    rcases List.mem_singleton.mp he with rfl
    exact hroom
  | a :: as, hreg, hroom => by
    intro e he
    unfold setRoom at he
    split at he
    · rcases List.mem_cons.mp he with rfl | h
      · exact hroom
      · exact hreg e (List.mem_cons_of_mem a h)
    · rcases List.mem_cons.mp he with he1 | h
      · rw [he1]
        exact hreg _ (List.mem_cons_self _ as)
      · exact setRoom_regInv rid room as
          (fun x hx => hreg x (List.mem_cons_of_mem a hx)) hroom e h

/-- Fresh-room creation plus first player: room invariant. -/
theorem joinRoom_regInv (env : Env) (rid pid : Nat) (pname : String)
    (regs : Registry) (hreg : RegInv regs) :
    RegInv (joinRoom env rid pid pname regs) := by
  unfold joinRoom
  cases hl : lookupRoom rid regs with
  | none =>
    apply setRoom_regInv rid _ regs hreg
    refine ⟨?_, ?_, ?_⟩
    · show ((insertPlayer (newPlayer env 300 pid pname) []).map Player.id).Nodup
      simp [insertPlayer]
    · show 100 ≤ (seedFood env).length
      rw [seedFood_length]
    · intro p hp
      rcases insertPlayer_mem _ [] p hp with rfl | h
      · exact newPlayer_inv env 300 pid pname
      · exact absurd h (by simp)
  | some room =>
    have hroom := lookupRoom_roomInv regs rid room hreg hl
    apply setRoom_regInv rid _ regs hreg
    refine ⟨?_, hroom.2.1, ?_⟩
    · exact insertPlayer_nodup _ room.players hroom.1
    · intro p hp
      rcases insertPlayer_mem _ room.players p hp with rfl | h
      · exact newPlayer_inv env 0 pid pname
      · exact hroom.2.2 p h

/-- Mapping an id-preserving, invariant-preserving update over the player map
keeps the room invariant (covers the `input` and `boost` handlers). -/
theorem mapPlayers_roomInv (room : Room) (f : Player → Player)
    (hid : ∀ q, (f q).id = q.id)
    (hpi : ∀ q, PlayerInv q → PlayerInv (f q))
    (hroom : RoomInv room) :
    RoomInv { room with players := room.players.map f } := by
  refine ⟨?_, hroom.2.1, ?_⟩
  · show ((room.players.map f).map Player.id).Nodup
    have h : (room.players.map f).map Player.id = room.players.map Player.id := by
      induction room.players with
      | nil => rfl
      | cons a t ih => simp only [List.map_cons, hid, ih]
    rw [h]
    exact hroom.1
  · intro p hp
    rcases List.mem_map.mp hp with ⟨q, hq, rfl⟩
    exact hpi q (hroom.2.2 q hq)

/-- An angle update does not touch the invariant fields. -/
theorem angle_update_playerInv (a : ℚ) (q : Player) (h : PlayerInv q) :
    PlayerInv { q with angle := a } := h

/-- A boost-flag update does not touch the invariant fields. -/
theorem boost_update_playerInv (b : Bool) (q : Player) (h : PlayerInv q) :
    PlayerInv { q with isBoosting := b } := h

/-- Every server event preserves the registry invariant. -/
theorem applyOp_regInv (regs : Registry) (op : Op) (hreg : RegInv regs) :
    RegInv (applyOp regs op) := by
  cases op with
  | join env rid pid pname => exact joinRoom_regInv env rid pid pname regs hreg
  | angleInput rid pid a =>
    show RegInv (inputOp rid pid a regs)
    unfold inputOp
    cases hl : lookupRoom rid regs with
    | none => exact hreg
    | some room =>
      apply setRoom_regInv rid _ regs hreg
      apply mapPlayers_roomInv room _ ?_ ?_
        (lookupRoom_roomInv regs rid room hreg hl)
      · intro q
        by_cases h : q.id = pid <;> simp [h]
      · intro q hq
        by_cases h : q.id = pid <;> simp only [h, if_true, if_false] <;>
          first | exact angle_update_playerInv a q hq | exact hq
  | boostInput rid pid b =>
    show RegInv (boostOp rid pid b regs)
    unfold boostOp
    cases hl : lookupRoom rid regs with
    | none => exact hreg
    | some room =>
      apply setRoom_regInv rid _ regs hreg
      apply mapPlayers_roomInv room _ ?_ ?_
        (lookupRoom_roomInv regs rid room hreg hl)
      · intro q
        by_cases h : q.id = pid <;> simp [h]
      · intro q hq
        by_cases h : q.id = pid <;> simp only [h, if_true, if_false] <;>
          first | exact boost_update_playerInv b q hq | exact hq
  | leave rid pid =>
    show RegInv (disconnectOp rid pid regs)
    unfold disconnectOp
    cases hl : lookupRoom rid regs with
    | none => exact hreg
    | some room =>
      have hroom := lookupRoom_roomInv regs rid room hreg hl
      show RegInv (if (room.players.filter (fun q => q.id != pid)).isEmpty then
        regs.filter (fun e => e.1 != rid)
      else
        setRoom rid
          { room with players := room.players.filter (fun q => q.id != pid) }
          regs)
      split
      · intro e he
        exact hreg e (List.mem_filter.mp he).1
      · apply setRoom_regInv rid _ regs hreg
        refine ⟨?_, hroom.2.1, ?_⟩
        · show ((room.players.filter
              (fun q => q.id != pid)).map Player.id).Nodup
          exact hroom.1.sublist ((List.filter_sublist _).map Player.id)
        · intro p hp
          exact hroom.2.2 p (List.mem_filter.mp hp).1
  | tickOp env =>
    show RegInv (tickAll env regs)
    intro e he
    rcases List.mem_map.mp he with ⟨e0, he0, rfl⟩
    exact tick_roomInv env e0.2 (hreg e0 he0)

/-- The registry invariant holds along any fold of events. -/
theorem foldl_regInv :
    ∀ (ops : List Op) (regs : Registry), RegInv regs →
      RegInv (ops.foldl applyOp regs)
  | [], regs, h => h
  | op :: ops, regs, h =>
    foldl_regInv ops (applyOp regs op) (applyOp_regInv regs op h)

/-- Every reachable registry satisfies the registry invariant. -/
theorem reach_regInv (ops : List Op) : RegInv (reach ops) :=
  foldl_regInv ops [] (fun e he => absurd he (by simp))

/-- Lookup after assigning the same key. -/
theorem lookupRoom_setRoom (rid : Nat) (r : Room) :
    ∀ regs : Registry, lookupRoom rid (setRoom rid r regs) = some r
  | [] => by simp [lookupRoom, setRoom]
  | a :: as => by
    unfold setRoom
    split
    · simp [lookupRoom]
    · rename_i hne
      have h : (a.1 == rid) = false := beq_eq_false_iff_ne.mpr hne
      simp only [lookupRoom, List.find?]
      rw [h]
      exact lookupRoom_setRoom rid r as

/-- Lookup after deleting the key. -/
theorem lookupRoom_filter_self (rid : Nat) :
    ∀ regs : Registry,
      lookupRoom rid (regs.filter (fun e => e.1 != rid)) = none
  | [] => rfl
  | a :: as => by
    by_cases h : a.1 = rid
    · have hb : (a.1 != rid) = false := by simp [h]
      simp only [List.filter_cons, hb, Bool.false_eq_true, if_false]
      exact lookupRoom_filter_self rid as
    · have hb : (a.1 != rid) = true := by simp [h]
      have hb2 : (a.1 == rid) = false := beq_eq_false_iff_ne.mpr h
      simp only [List.filter_cons, hb, if_true]
      simp only [lookupRoom, List.find?]
      rw [hb2]
      exact lookupRoom_filter_self rid as

/-- The game loop maps every registered room through `tick` and never changes
the key set. -/
theorem lookupRoom_tickAll (env : Env) (rid : Nat) :
    ∀ regs : Registry,
      lookupRoom rid (tickAll env regs) =
        (lookupRoom rid regs).map (fun r => (tick env r).room)
  | [] => rfl
  | a :: as => by
    show lookupRoom rid ((a.1, (tick env a.2).room) :: tickAll env as) = _
    by_cases h : (a.1 == rid) = true
    · simp only [lookupRoom, List.find?, h]
      rfl
    · have h2 : (a.1 == rid) = false := by
        cases hb : (a.1 == rid) with
        | true => exact absurd hb h
        | false => rfl
      simp only [lookupRoom, List.find?, h2]
      exact lookupRoom_tickAll env rid as

/-- Claim C3 (amended): a room is created on the first `joinRoom` with its
identifier (with a freshly seeded set of exactly 100 foods and no stale
state), and it is destroyed when a `disconnect` empties its player mapping.
The death path does not destroy rooms: a game-loop pass never changes which
identifiers are registered, even for a room emptied by simultaneous deaths, so
only a later disconnect removes it. -/
theorem c3_room_lifecycle (env : Env) (rid pid : Nat) (pname : String)
    (regs : Registry) (room : Room)
    (h1 : lookupRoom rid regs = some room)
    (h2 : (room.players.filter (fun q => q.id != pid)).isEmpty = true) :
    lookupRoom rid (disconnectOp rid pid regs) = none ∧
    (∀ regs2 : Registry, lookupRoom rid regs2 = none →
      lookupRoom rid (joinRoom env rid pid pname regs2) =
        some { players := [newPlayer env 300 pid pname],
               food := seedFood env, tickCount := 0 } ∧
        (seedFood env).length = 100) ∧
    (∀ (env2 : Env) (regs2 : Registry),
      (lookupRoom rid regs2).isSome =
        (lookupRoom rid (tickAll env2 regs2)).isSome) := by
  refine ⟨?_, ?_, ?_⟩
  · unfold disconnectOp
    rw [h1]
    show lookupRoom rid
      (if (room.players.filter (fun q => q.id != pid)).isEmpty then
        regs.filter (fun e => e.1 != rid)
      else
        setRoom rid
          { room with players := room.players.filter (fun q => q.id != pid) }
          regs) = none
    rw [if_pos h2]
    exact lookupRoom_filter_self rid regs
  · intro regs2 hnone
    unfold joinRoom
    rw [hnone]
    exact ⟨lookupRoom_setRoom rid _ regs2, seedFood_length env⟩
  · intro env2 regs2
    rw [lookupRoom_tickAll]
    cases lookupRoom rid regs2 <;> rfl

set_option maxRecDepth 10000 in
/-- Witness for claim C3: disconnecting the only player of a one-player room
destroys the room; a rejoin then recreates it fresh. -/
theorem c3_room_lifecycle_witness :
    (lookupRoom 1 (reach [Op.join env0 1 5 "a"]) = some c3FreshRoom ∧
      (c3FreshRoom.players.filter (fun q => q.id != 5)).isEmpty = true) ∧
    (lookupRoom 1 (disconnectOp 1 5 (reach [Op.join env0 1 5 "a"])) = none ∧
      (∀ regs2 : Registry, lookupRoom 1 regs2 = none →
        lookupRoom 1 (joinRoom env0 1 5 "a" regs2) =
          some { players := [newPlayer env0 300 5 "a"],
                 food := seedFood env0, tickCount := 0 } ∧
          (seedFood env0).length = 100) ∧
      (∀ (env2 : Env) (regs2 : Registry),
        (lookupRoom 1 regs2).isSome =
          (lookupRoom 1 (tickAll env2 regs2)).isSome)) :=
  ⟨⟨by decide, by decide⟩,
    c3_room_lifecycle env0 1 5 "a" (reach [Op.join env0 1 5 "a"]) c3FreshRoom
      (by decide) (by decide)⟩

/-- Claim C10: every player of every reachable room has score at least 10 —
the score starts at `INITIAL_SCORE = 100`, the boost deduction is the only
score decrease, fires only with score strictly above 10, and deducts exactly
1, while every other change adds 10 per eaten food. -/
theorem c10_score_never_below_ten (ops : List Op) (rid : Nat) (room : Room)
    (hmem : (rid, room) ∈ reach ops) (p : Player) (hp : p ∈ room.players) :
    10 ≤ p.score ∧
    (∀ (env : Env) (i : Nat) (pid : Nat) (pname : String),
      (newPlayer env i pid pname).score = INITIAL_SCORE) ∧
    (∀ (tc : Nat) (q : Player),
      (boostPlayer tc q).score = q.score ∨
        ((boostPlayer tc q).score = q.score - 1 ∧ 10 < q.score)) ∧
    (∀ (env : Env) (tc : Nat) (q : Player) (food : List Food) (i : Nat),
      (stepPlayer env tc q food i).player.score =
        (boostPlayer tc q).score + 10 * (scanOf env tc q food i).2.2) := by
  refine ⟨(reach_regInv ops (rid, room) hmem).2.2 p hp |>.1, fun _ _ _ _ => rfl,
    ?_, fun _ _ _ _ _ => rfl⟩
  intro tc q
  unfold boostPlayer
  split_ifs with hcond ht
  · rw [Bool.and_eq_true, decide_eq_true_eq] at hcond
    exact Or.inr ⟨rfl, hcond.2⟩
  · exact Or.inl rfl
  · exact Or.inl rfl

set_option maxRecDepth 10000 in
/-- Witness for claim C10 at the registry reached by a single join. -/
theorem c10_score_never_below_ten_witness :
    ((1, c3FreshRoom) ∈ reach [Op.join env0 1 5 "a"] ∧
      newPlayer env0 300 5 "a" ∈ c3FreshRoom.players) ∧
    (10 ≤ (newPlayer env0 300 5 "a").score ∧
      (∀ (env : Env) (i : Nat) (pid : Nat) (pname : String),
        (newPlayer env i pid pname).score = INITIAL_SCORE) ∧
      (∀ (tc : Nat) (q : Player),
        (boostPlayer tc q).score = q.score ∨
          ((boostPlayer tc q).score = q.score - 1 ∧ 10 < q.score)) ∧
      (∀ (env : Env) (tc : Nat) (q : Player) (food : List Food) (i : Nat),
        (stepPlayer env tc q food i).player.score =
          (boostPlayer tc q).score + 10 * (scanOf env tc q food i).2.2)) :=
  ⟨⟨by decide, by decide⟩,
    c10_score_never_below_ten [Op.join env0 1 5 "a"] 1 c3FreshRoom (by decide)
      (newPlayer env0 300 5 "a") (by decide)⟩

/-- Claim C6: a reachable room's food count is always at least the seeded
count 100: each scan replaces consumed food 1:1 within the same tick, a tick
never shrinks the food list (boost residue and death conversion only append),
and no other event touches an existing room's food. -/
theorem c6_food_count_floor (ops : List Op) (rid : Nat) (room : Room)
    (hmem : (rid, room) ∈ reach ops) :
    100 ≤ room.food.length ∧
    (∀ (env : Env) (r : Room), r.food.length ≤ (tick env r).room.food.length) ∧
    (∀ (env : Env) (hd : Pos) (food : List Food) (i : Nat),
      (eatFood env hd food i).1.length = food.length) ∧
    (∀ env : Env, (createRoom env).food.length = 100) :=
  ⟨(reach_regInv ops (rid, room) hmem).2.1,
    fun env r => tick_food_length env r,
    fun env hd food i => eatFood_length env hd food i,
    fun env => seedFood_length env⟩

set_option maxRecDepth 10000 in
/-- Witness for claim C6 at the registry reached by a single join. -/
theorem c6_food_count_floor_witness :
    (1, c3FreshRoom) ∈ reach [Op.join env0 1 5 "a"] ∧
    (100 ≤ c3FreshRoom.food.length ∧
      (∀ (env : Env) (r : Room),
        r.food.length ≤ (tick env r).room.food.length) ∧
      (∀ (env : Env) (hd : Pos) (food : List Food) (i : Nat),
        (eatFood env hd food i).1.length = food.length) ∧
      (∀ env : Env, (createRoom env).food.length = 100)) :=
  ⟨by decide,
    c6_food_count_floor [Op.join env0 1 5 "a"] 1 c3FreshRoom (by decide)⟩

/-- With unique ids, two members of a player map with equal ids coincide. -/
theorem mem_id_unique (ps : List Player) (h : (ps.map Player.id).Nodup)
    (a b : Player) (ha : a ∈ ps) (hb : b ∈ ps) (hid : a.id = b.id) : a = b :=
  List.inj_on_of_nodup_map h ha hb hid

/-- A tick survivor's id comes from a pre-tick player. -/
theorem tick_players_id_source (env : Env) (r : Room) (q : Player)
    (hq : q ∈ (tick env r).room.players) :
    ∃ p ∈ r.players, p.id = q.id := by
  obtain ⟨p, hp, f, j, rfl⟩ := tick_players_mem env r q hq
  exact ⟨p, hp, (stepPlayer_player_id env _ p f j).symm⟩

/-- With unique ids, the tick survivor carrying a given player's id is that
player's image under one movement-loop iteration. -/
theorem tick_track (env : Env) (r : Room) (hn : NodupIds r)
    (p q : Player) (hp : p ∈ r.players) (hq : q ∈ (tick env r).room.players)
    (hid : q.id = p.id) :
    ∃ f j, q = (stepPlayer env (r.tickCount + 1) p f j).player := by
  obtain ⟨p0, hp0, f, j, rfl⟩ := tick_players_mem env r q hq
  rw [stepPlayer_player_id] at hid
  rw [mem_id_unique r.players hn p0 p hp0 hp hid]
  exact ⟨f, j, rfl⟩

/-- The room invariant survives a tick sequence. -/
theorem tickSeq_roomInv :
    ∀ (envs : List Env) (r : Room), RoomInv r → RoomInv (tickSeq envs r)
  | [], _, h => h
  | e :: rest, r, h =>
    tickSeq_roomInv rest (tick e r).room (tick_roomInv e r h)

/-- A tick-sequence survivor's id comes from a player of the starting room. -/
theorem tickSeq_ids_source :
    ∀ (envs : List Env) (r : Room) (q : Player),
      q ∈ (tickSeq envs r).players → ∃ p ∈ r.players, p.id = q.id
  | [], r, q => by
    intro hq
    exact ⟨q, hq, rfl⟩
  | e :: rest, r, q => by
    intro hq
    obtain ⟨q1, hq1, hid1⟩ := tickSeq_ids_source rest (tick e r).room q hq
    obtain ⟨p, hp, hid0⟩ := tick_players_id_source e r q1 hq1
    exact ⟨p, hp, hid0.trans hid1⟩

/-- The target length never decreases through one movement-loop iteration. -/
theorem stepPlayer_length_mono (env : Env) (tc : Nat) (p : Player)
    (food : List Food) (i : Nat) :
    p.length ≤ (stepPlayer env tc p food i).player.length := by
  rw [stepPlayer_player_length]
  omega

/-- The target length never decreases along a tick sequence (tracking one id
through the surviving players). -/
theorem tickSeq_length_mono :
    ∀ (envs : List Env) (r : Room), NodupIds r →
      ∀ (p q : Player), p ∈ r.players → q ∈ (tickSeq envs r).players →
        q.id = p.id → p.length ≤ q.length
  | [], r, hn, p, q, hp, hq, hid => by
    rw [mem_id_unique r.players hn q p hq hp hid]
  | e :: rest, r, hn, p, q, hp, hq, hid => by
    obtain ⟨q1, hq1, hid1⟩ := tickSeq_ids_source rest (tick e r).room q hq
    have hn1 := tick_nodup e r hn
    obtain ⟨f, j, hq1eq⟩ := tick_track e r hn p q1 hp hq1 (hid1.trans hid)
    have h1 : p.length ≤ q1.length := by
      rw [hq1eq]
      exact stepPlayer_length_mono e (r.tickCount + 1) p f j
    have h2 : q1.length ≤ q.length :=
      tickSeq_length_mono rest (tick e r).room hn1 q1 q hq1 hq hid1.symm
    exact le_trans h1 h2

/-- Catch-up: tracking a player through a tick sequence during which its
target length does not change, its body grows by one segment per tick up to
the target length. -/
theorem tickSeq_body_catchup :
    ∀ (envs : List Env) (r : Room), NodupIds r →
      ∀ (p q : Player), p ∈ r.players → q ∈ (tickSeq envs r).players →
        q.id = p.id → q.length = p.length →
        min (p.body.length + envs.length) p.length ≤ q.body.length
  | [], r, hn, p, q, hp, hq, hid, _ => by
    rw [mem_id_unique r.players hn q p hq hp hid]
    have h0 : ([] : List Env).length = 0 := rfl
    omega
  | e :: rest, r, hn, p, q, hp, hq, hid, hlen => by
    obtain ⟨q1, hq1, hid1⟩ := tickSeq_ids_source rest (tick e r).room q hq
    have hn1 := tick_nodup e r hn
    obtain ⟨f, j, hq1eq⟩ := tick_track e r hn p q1 hp hq1 (hid1.trans hid)
    have hq1len : q1.length =
        p.length + (scanOf e (r.tickCount + 1) p f j).2.2 := by
      rw [hq1eq, stepPlayer_player_length]
    have hmono : q1.length ≤ q.length :=
      tickSeq_length_mono rest (tick e r).room hn1 q1 q hq1 hq hid1.symm
    have heat : q1.length = p.length := by omega
    have hq1body : q1.body.length = min p.length (p.body.length + 1) := by
      rw [hq1eq, stepPlayer_player_body, movedP_body_length]
    have ih := tickSeq_body_catchup rest (tick e r).room hn1 q1 q hq1 hq
      hid1.symm (hlen.trans heat.symm)
    have hcons : (e :: rest).length = rest.length + 1 := rfl
    omega

/-- Claim C5: in every reachable room, every player's body-segment count never
exceeds the target length, is never empty, and its head segment is the most
recent position sample; at spawn the body already has target-length segments;
and tracking a surviving player through consecutive ticks in which its target
length does not change (no growth), the body reaches exactly the target length
once at least target-length ticks have elapsed. -/
theorem c5_body_invariants (ops : List Op) (rid : Nat) (room : Room)
    (hmem : (rid, room) ∈ reach ops) (p : Player) (hp : p ∈ room.players) :
    (p.body.length ≤ p.length ∧ 1 ≤ p.body.length ∧
      p.body.head? = some p.pos) ∧
    (∀ (env : Env) (i pid : Nat) (pname : String),
      (newPlayer env i pid pname).body.length =
        (newPlayer env i pid pname).length) ∧
    (∀ (envs : List Env) (r : Room) (q q' : Player),
      RoomInv r → q ∈ r.players → q' ∈ (tickSeq envs r).players →
      q'.id = q.id → q'.length = q.length → q.length ≤ envs.length →
      q'.body.length = q'.length) := by
  have hpi := (reach_regInv ops (rid, room) hmem).2.2 p hp
  refine ⟨⟨hpi.2.2.1, hpi.2.1, hpi.2.2.2⟩, ?_, ?_⟩
  · intro env i pid pname
    simp [newPlayer, INITIAL_LENGTH]
  · intro envs r q q' hr hq hq' hid hqlen henvs
    have hup : q'.body.length ≤ q'.length :=
      ((tickSeq_roomInv envs r hr).2.2 q' hq').2.2.1
    have hlo := tickSeq_body_catchup envs r hr.1 q q' hq hq' hid hqlen
    have hqb1 : 1 ≤ q.body.length := (hr.2.2 q hq).2.1
    omega

set_option maxRecDepth 10000 in
/-- Witness for claim C5 at the registry reached by a single join. -/
theorem c5_body_invariants_witness :
    ((1, c3FreshRoom) ∈ reach [Op.join env0 1 5 "a"] ∧
      newPlayer env0 300 5 "a" ∈ c3FreshRoom.players) ∧
    (((newPlayer env0 300 5 "a").body.length ≤ (newPlayer env0 300 5 "a").length ∧
        1 ≤ (newPlayer env0 300 5 "a").body.length ∧
        (newPlayer env0 300 5 "a").body.head? =
          some (newPlayer env0 300 5 "a").pos) ∧
      (∀ (env : Env) (i pid : Nat) (pname : String),
        (newPlayer env i pid pname).body.length =
          (newPlayer env i pid pname).length) ∧
      (∀ (envs : List Env) (r : Room) (q q' : Player),
        RoomInv r → q ∈ r.players → q' ∈ (tickSeq envs r).players →
        q'.id = q.id → q'.length = q.length → q.length ≤ envs.length →
        q'.body.length = q'.length)) :=
  ⟨⟨by decide, by decide⟩,
    c5_body_invariants [Op.join env0 1 5 "a"] 1 c3FreshRoom (by decide)
      (newPlayer env0 300 5 "a") (by decide)⟩

/-- With unique ids, the id lookup of a member finds exactly that member. -/
theorem find?_id_of_mem :
    ∀ (ps : List Player), (ps.map Player.id).Nodup →
      ∀ d : Player, d ∈ ps → ps.find? (fun q => q.id == d.id) = some d
  | [], _, d, hd => absurd hd (by simp)
  | a :: t, hn, d, hd => by
    rw [List.map_cons, List.nodup_cons] at hn
    rcases List.mem_cons.mp hd with rfl | hdt
    · simp [List.find?]
    · have hne : (a.id == d.id) = false := by
        rw [beq_eq_false_iff_ne]
        intro hcontra
        exact hn.1 (List.mem_map.mpr ⟨d, hdt, hcontra.symm⟩)
      simp only [List.find?, hne]
      exact find?_id_of_mem t hn.2 d hdt

/-- Death resolution, resolved against the dead players themselves: the
resolved ids are deleted from the map, each dead player's even-indexed
segments are appended as food in order, and one `dead` message is emitted per
resolved id. -/
theorem removeDead_by_players :
    ∀ (dead ps : List Player) (food : List Food),
      (ps.map Player.id).Nodup → dead.Sublist ps →
      removeDead (dead.map Player.id) ps food =
        (ps.filter (fun p => decide (p.id ∉ dead.map Player.id)),
         food ++ (dead.map explode).join,
         (dead.map Player.id).map Msg.dead)
  | [], ps, food, hn, hsub => by
    simp [removeDead]
  | d :: rest, ps, food, hn, hsub => by
    have hdps : d ∈ ps := hsub.subset (List.mem_cons_self d rest)
    have hidnodup : ((d :: rest).map Player.id).Nodup :=
      hn.sublist (hsub.map Player.id)
    rw [List.map_cons, List.nodup_cons] at hidnodup
    have hrest_ps : rest.Sublist ps :=
      (List.sublist_cons_self d rest).trans hsub
    have hrest_all : ∀ x ∈ rest, (x.id != d.id) = true := by
      intro x hx
      rw [bne_iff_ne]
      intro hcontra
      exact hidnodup.1 (List.mem_map.mpr ⟨x, hx, hcontra⟩)
    have hrest_sub : rest.Sublist (ps.filter (fun q => q.id != d.id)) := by
      have h1 : rest.filter (fun q => q.id != d.id) = rest :=
        List.filter_eq_self.mpr hrest_all
      rw [← h1]
      exact hrest_ps.filter _
    have hn2 : ((ps.filter (fun q => q.id != d.id)).map Player.id).Nodup :=
      hn.sublist ((List.filter_sublist ps).map Player.id)
    have ih := removeDead_by_players rest
      (ps.filter (fun q => q.id != d.id)) (food ++ explode d) hn2 hrest_sub
    show removeDead (d.id :: rest.map Player.id) ps food = _
    unfold removeDead
    rw [find?_id_of_mem ps hn d hdps]
    show ((removeDead (rest.map Player.id)
        (ps.filter (fun q => q.id != d.id)) (food ++ explode d)).1,
      (removeDead (rest.map Player.id)
        (ps.filter (fun q => q.id != d.id)) (food ++ explode d)).2.1,
      Msg.dead d.id :: (removeDead (rest.map Player.id)
        (ps.filter (fun q => q.id != d.id)) (food ++ explode d)).2.2) = _
    rw [ih]
    simp only [Prod.mk.injEq]
    refine ⟨?_, ?_, ?_⟩
    · rw [List.filter_filter]
      apply List.filter_congr
      intro a _
      by_cases h1 : a.id = d.id <;> by_cases h2 : a.id ∈ rest.map Player.id <;>
        simp [h1, h2]
    · simp [List.append_assoc]
    · simp

/-- With unique ids, an id is in the dead-id list exactly when its player is
marked dead. -/
theorem mem_deadIds_iff (ps : List Player) (hn : (ps.map Player.id).Nodup)
    (p : Player) (hp : p ∈ ps) :
    p.id ∈ deadIds ps ↔ isDead ps p = true := by
  unfold deadIds
  rw [List.mem_map]
  constructor
  · rintro ⟨p', hp', hid⟩
    rw [List.mem_filter] at hp'
    rw [← mem_id_unique ps hn p' p hp'.1 hp hid]
    exact hp'.2
  · intro h
    exact ⟨p, List.mem_filter.mpr ⟨hp, h⟩, rfl⟩

/-- Number of even positions among the indices `k, k+1, ...` attached to a
list by `enumFrom`. -/
theorem enumFrom_even_length {α : Type} :
    ∀ (l : List α) (k : Nat),
      ((List.enumFrom k l).filter (fun z => z.1 % 2 = 0)).length =
        (l.length + if k % 2 = 0 then 1 else 0) / 2
  | [], k => by
    simp only [List.enumFrom, List.filter_nil, List.length_nil]
    by_cases hk : k % 2 = 0 <;> simp [hk]
  | a :: t, k => by
    have ih := enumFrom_even_length t (k + 1)
    by_cases hk : k % 2 = 0
    · have hk1 : ¬ (k + 1) % 2 = 0 := by omega
      simp only [List.enumFrom, List.filter_cons, decide_eq_true_eq, hk, hk1,
        if_true, if_false, List.length_cons] at ih ⊢
      omega
    · have hk1 : (k + 1) % 2 = 0 := by omega
      simp only [List.enumFrom, List.filter_cons, decide_eq_true_eq, hk, hk1,
        if_true, if_false, List.length_cons] at ih ⊢
      omega

/-- The indexed pairs produced by `enumFrom` contain every position of the
list with its shifted index. -/
theorem mem_enumFrom_get {α : Type} :
    ∀ (l : List α) (k0 k : Nat) (hk : k < l.length),
      (k0 + k, l.get ⟨k, hk⟩) ∈ List.enumFrom k0 l
  | a :: t, k0, 0, hk => by simp [List.enumFrom]
  | a :: t, k0, k + 1, hk => by
    have hk' : k < t.length := by
      have := hk
      simp only [List.length_cons] at this
      omega
    have ih := mem_enumFrom_get t (k0 + 1) k hk'
    have harith : k0 + (k + 1) = (k0 + 1) + k := by omega
    rw [harith]
    exact List.mem_cons_of_mem _ ih

/-- Every food from a death conversion carries the dying player's color. -/
theorem explode_color (p : Player) : ∀ g ∈ explode p, g.color = p.color := by
  intro g hg
  unfold explode at hg
  rcases List.mem_map.mp hg with ⟨z, _, rfl⟩
  rfl

/-- A death conversion yields one food per even body index: `⌈n/2⌉` foods. -/
theorem explode_length (p : Player) :
    (explode p).length = (p.body.length + 1) / 2 := by
  unfold explode
  rw [List.length_map]
  show ((List.enumFrom 0 p.body).filter (fun z => z.1 % 2 = 0)).length = _
  rw [enumFrom_even_length]
  simp

/-- Every even-indexed body segment appears in the death conversion, colored
as the player. -/
theorem explode_mem (p : Player) (k : Nat) (hk : 2 * k < p.body.length) :
    Food.mk (p.body.get ⟨2 * k, hk⟩).x (p.body.get ⟨2 * k, hk⟩).y p.color ∈
      explode p := by
  unfold explode
  apply List.mem_map.mpr
  refine ⟨(2 * k, p.body.get ⟨2 * k, hk⟩), ?_, rfl⟩
  apply List.mem_filter.mpr
  constructor
  · show (2 * k, p.body.get ⟨2 * k, hk⟩) ∈ List.enumFrom 0 p.body
    simpa using mem_enumFrom_get p.body 0 (2 * k) hk
  · simp [Nat.mul_mod_right]

/-- Claim C7: in any tick of a room with unique ids, the players marked dead
are exactly deleted from the map before the broadcast (the `gameState` message
carries the post-removal players), each dead player's even-indexed body
segments — one food per even index, `⌈n/2⌉` in total, all colored as the dying
snake — are appended to the food list, and one `dead` message is emitted,
targeted at exactly the ids of the players whose deaths were resolved. -/
theorem c7_death_resolution (env : Env) (r : Room) (hn : NodupIds r) :
    ((tick env r).room.players =
        (movedOf env r).players.filter
          (fun p => ! isDead (movedOf env r).players p) ∧
      ∀ p ∈ (tick env r).room.players,
        isDead (movedOf env r).players p = false) ∧
    ((tick env r).room.food =
      (movedOf env r).food ++ ((tickDead env r).map explode).join) ∧
    ((tick env r).msgs =
        (tickDead env r).map (fun p => Msg.dead p.id) ++
          [Msg.gameState (tick env r).room.players (tick env r).room.food] ∧
      ∀ q : Nat, Msg.dead q ∈ (tick env r).msgs ↔
        q ∈ deadIds (movedOf env r).players) ∧
    ((∀ (p : Player), ∀ g ∈ explode p, g.color = p.color) ∧
      (∀ p : Player, (explode p).length = (p.body.length + 1) / 2) ∧
      ∀ (p : Player) (k : Nat) (hk : 2 * k < p.body.length),
        Food.mk (p.body.get ⟨2 * k, hk⟩).x (p.body.get ⟨2 * k, hk⟩).y
          p.color ∈ explode p) := by
  have hn' : ((movedOf env r).players.map Player.id).Nodup := by
    show ((movePhase env (r.tickCount + 1) r.players r.food
        0).players.map Player.id).Nodup
    rw [movePhase_ids]
    exact hn
  have hmain := removeDead_by_players (tickDead env r) (movedOf env r).players
    (movedOf env r).food hn' (List.filter_sublist _)
  have hideq : deadIds (movedOf env r).players =
      (tickDead env r).map Player.id := rfl
  have hplayers : (tick env r).room.players =
      (movedOf env r).players.filter
        (fun p => decide (p.id ∉ (tickDead env r).map Player.id)) := by
    show (removeDead (deadIds (movedOf env r).players) (movedOf env r).players
      (movedOf env r).food).1 = _
    rw [hideq, hmain]
  have hfilter : (movedOf env r).players.filter
      (fun p => decide (p.id ∉ (tickDead env r).map Player.id)) =
      (movedOf env r).players.filter
        (fun p => ! isDead (movedOf env r).players p) := by
    apply List.filter_congr
    intro a ha
    have hiff := mem_deadIds_iff (movedOf env r).players hn' a ha
    rw [hideq] at hiff
    by_cases hd : isDead (movedOf env r).players a
    · simp only [hd, Bool.not_true, decide_eq_false_iff_not, Decidable.not_not]
      exact hiff.mpr hd
    · simp only [hd, Bool.not_false, decide_eq_true_eq]
      intro hcontra
      exact hd (hiff.mp hcontra)
  have hfood : (tick env r).room.food =
      (movedOf env r).food ++ ((tickDead env r).map explode).join := by
    show (removeDead (deadIds (movedOf env r).players) (movedOf env r).players
      (movedOf env r).food).2.1 = _
    rw [hideq, hmain]
  have hmsgs : (tick env r).msgs =
      (tickDead env r).map (fun p => Msg.dead p.id) ++
        [Msg.gameState (tick env r).room.players (tick env r).room.food] := by
    show (removeDead (deadIds (movedOf env r).players) (movedOf env r).players
        (movedOf env r).food).2.2 ++
      [Msg.gameState (tick env r).room.players (tick env r).room.food] = _
    rw [hideq, hmain]
    simp only [List.map_map]
    rfl
  refine ⟨⟨hplayers.trans hfilter, ?_⟩, hfood, ⟨hmsgs, ?_⟩,
    explode_color, explode_length, explode_mem⟩
  · intro p hp
    rw [hplayers.trans hfilter] at hp
    have h2 := (List.mem_filter.mp hp).2
    simp only [Bool.not_eq_true'] at h2
    exact h2
  · intro q
    rw [hmsgs, hideq]
    simp only [List.mem_append, List.mem_map, List.mem_singleton]
    constructor
    · rintro (⟨p, hp, heq⟩ | heq)
      · refine ⟨p, hp, ?_⟩
        have := heq
        simp only [Msg.dead.injEq] at this
        exact this
      · exact absurd heq (by simp)
    · rintro ⟨p, hp, hpid⟩
      exact Or.inl ⟨p, hp, by rw [hpid]⟩

/-- Witness for claim C7 at the two-player collision room. -/
theorem c7_death_resolution_witness :
    NodupIds c1Room ∧
    (((tick c1Env c1Room).room.players =
        (movedOf c1Env c1Room).players.filter
          (fun p => ! isDead (movedOf c1Env c1Room).players p) ∧
      ∀ p ∈ (tick c1Env c1Room).room.players,
        isDead (movedOf c1Env c1Room).players p = false) ∧
    ((tick c1Env c1Room).room.food =
      (movedOf c1Env c1Room).food ++
        ((tickDead c1Env c1Room).map explode).join) ∧
    ((tick c1Env c1Room).msgs =
        (tickDead c1Env c1Room).map (fun p => Msg.dead p.id) ++
          [Msg.gameState (tick c1Env c1Room).room.players
            (tick c1Env c1Room).room.food] ∧
      ∀ q : Nat, Msg.dead q ∈ (tick c1Env c1Room).msgs ↔
        q ∈ deadIds (movedOf c1Env c1Room).players) ∧
    ((∀ (p : Player), ∀ g ∈ explode p, g.color = p.color) ∧
      (∀ p : Player, (explode p).length = (p.body.length + 1) / 2) ∧
      ∀ (p : Player) (k : Nat) (hk : 2 * k < p.body.length),
        Food.mk (p.body.get ⟨2 * k, hk⟩).x (p.body.get ⟨2 * k, hk⟩).y
          p.color ∈ explode p)) :=
  ⟨by unfold NodupIds; decide, c7_death_resolution c1Env c1Room (by unfold NodupIds; decide)⟩
